import Mathlib

/-!
# Formal model of the rose-db storage stack

A shallow embedding of the buffer pool managers, disk manager, slotted page
and B+ tree index of the repository, with theorems checking the
natural-language specification's claims against the code.

Machine integers are modelled as `Nat`/`Int` with explicit reductions
modulo `2^w` where the source's wrapping behaviour matters.  Page bytes are
modelled as total functions `Nat → Nat`; reads and writes that the Rust
source performs through checked slice indexing are bounds-checked and
return an error (modelling a panic) when out of range.
-/

namespace RoseDb

/-- `common/src/api.rs`: `pub type PageId = usize;` (64-bit). -/
abbrev PageId := Nat

/-- `common/src/api.rs` line 10: `pub const INVALID_PAGE_ID: PageId = 0;` -/
def INVALID_PAGE_ID : PageId := 0

/-- `common/src/api.rs` line 13: `pub const PAGE_SIZE: usize = 4096;` -/
def PAGE_SIZE : Nat := 4096

/-- The `std::io::ErrorKind` values the sources construct or can receive. -/
inductive IoKind where
  | alreadyExists
  | other
  | unexpectedEof
  deriving DecidableEq, Repr

/-- `common/src/api.rs` lines 16-22, `enum BpmError`: `NoFreeFrames` or
`IoError(std::io::Error)`; an `io::Error` is modelled by its kind and
message.  The extra `panicked` constructor models a Rust panic (failed
`assert!`, out-of-bounds slice index, `unwrap` failure), which in the source
aborts rather than returning. -/
inductive Err where
  | noFreeFrames
  | ioError (kind : IoKind) (msg : String)
  | panicked (msg : String)
  deriving DecidableEq, Repr

/-! ## Byte-level page primitives -/

/-- A page's bytes: byte index to byte value. -/
def Page : Type := Nat → Nat

instance : Inhabited Page := ⟨fun _ => 0⟩

/-- The all-zeros page (a freshly zeroed frame). -/
def zeroPage : Page := fun _ => 0

/-- Write the list `bs` at offset `off` (no bounds check; for checked
writes see `writeBytesE`). -/
def writeBytes (pg : Page) (off : Nat) (bs : List Nat) : Page :=
  fun i => if off ≤ i ∧ i < off + bs.length then bs.getD (i - off) 0 else pg i

/-- Read `n` bytes starting at `off` (no bounds check). -/
def readBytes (pg : Page) (off n : Nat) : List Nat :=
  (List.range n).map (fun j => pg (off + j))

/-- Checked write: Rust slice assignment `data[off..off+len].copy_from_slice`
panics when the range leaves the page. -/
def writeBytesE (pg : Page) (off : Nat) (bs : List Nat) : Except Err Page :=
  if off + bs.length ≤ PAGE_SIZE then .ok (writeBytes pg off bs)
  else .error (.panicked "slice index out of range")

/-- Checked read: Rust slice indexing `data[off..off+n]` panics when the
range leaves the page. -/
def readBytesE (pg : Page) (off n : Nat) : Except Err (List Nat) :=
  if off + n ≤ PAGE_SIZE then .ok (readBytes pg off n)
  else .error (.panicked "slice index out of range")

/-- Little-endian value of a byte list (`usize::from_le_bytes` and
friends). -/
def fromLe : List Nat → Nat
  | [] => 0
  | b :: bs => b % 256 + 256 * fromLe bs

/-- Little-endian `w`-byte encoding of `v % 256^w` (`to_le_bytes`). -/
def toLe (w v : Nat) : List Nat :=
  match w with
  | 0 => []
  | w + 1 => v % 256 :: toLe w (v / 256)

/-- Read a `w`-byte little-endian unsigned integer at `off`, unchecked
(used for header fields whose constant offsets are always in bounds). -/
def readLe (pg : Page) (off w : Nat) : Nat :=
  fromLe (readBytes pg off w)

/-- Write a `w`-byte little-endian unsigned integer at `off`, unchecked. -/
def writeLe (pg : Page) (off w v : Nat) : Page :=
  writeBytes pg off (toLe w v)

theorem toLe_length (w v : Nat) : (toLe w v).length = w := by
  induction w generalizing v with
  | zero => rfl
  | succ w ih => simp [toLe, ih]

theorem fromLe_toLe (w v : Nat) : fromLe (toLe w v) = v % 256 ^ w := by
  induction w generalizing v with
  | zero => simp [toLe, fromLe, Nat.mod_one]
  | succ w ih =>
      simp only [toLe, fromLe, ih, Nat.mod_mod_of_dvd, pow_succ]
      rw [mul_comm (256 ^ w) 256, Nat.mod_mul]
      omega

theorem writeBytes_apply (pg : Page) (off : Nat) (bs : List Nat) (i : Nat) :
    writeBytes pg off bs i =
      if off ≤ i ∧ i < off + bs.length then bs.getD (i - off) 0 else pg i := rfl

/-- Reading a region untouched by a write. -/
theorem readBytes_writeBytes_disjoint (pg : Page) (o1 : Nat) (bs : List Nat)
    (o2 n : Nat) (h : o2 + n ≤ o1 ∨ o1 + bs.length ≤ o2) :
    readBytes (writeBytes pg o1 bs) o2 n = readBytes pg o2 n := by
  simp only [readBytes, List.map_inj_left, List.mem_range]
  intro j hj
  rw [writeBytes_apply, if_neg]
  rintro ⟨h1, h2⟩
  rcases h with h | h
  · omega
  · omega

/-- Reading back exactly the bytes just written. -/
theorem readBytes_writeBytes_same (pg : Page) (off : Nat) (bs : List Nat) :
    readBytes (writeBytes pg off bs) off bs.length = bs := by
  simp only [readBytes]
  apply List.ext_getElem
  · simp
  · intro i h1 h2
    simp only [List.getElem_map, List.getElem_range]
    rw [writeBytes_apply, if_pos (by omega)]
    simp only [Nat.add_sub_cancel_left]
    exact List.getD_eq_getElem bs 0 (by simpa using h2)

/-! ## Disk manager (`common/src/disk_manager.rs`)

The database file is modelled by its length in pages (positional reads past
the end fail with `UnexpectedEof`, exactly as `read_exact_at` does on a
short read) and a total content map (a positional write beyond the current
end extends the file, the hole reading as zeros). -/

structure DiskManager where
  lenPages : Nat
  content : PageId → Page
  next_page_id : PageId

namespace DiskManager

/-- `DiskManager::new` (lines 20-60): on open, `next_page_id` is
initialized to `file_len / PAGE_SIZE`.  `lenPages` is that same quantity
for the file found on disk (0 for a freshly created file); a pre-existing
file's pages read as given by `content`. -/
def new (lenPages : Nat) (content : PageId → Page) : DiskManager :=
  { lenPages := lenPages, content := content, next_page_id := lenPages }

/-- `read_page` (lines 63-66): `read_exact_at` at offset
`page_id * PAGE_SIZE`; fails iff the page lies beyond the file end. -/
def read_page (d : DiskManager) (page_id : PageId) : Except Err Page :=
  if page_id < d.lenPages then .ok (d.content page_id)
  else .error (.ioError .unexpectedEof "failed to fill whole buffer")

/-- `write_page` (lines 69-72): positional write; extends the file when
writing past the end. -/
def write_page (d : DiskManager) (page_id : PageId) (data : Page) : DiskManager :=
  { d with
    lenPages := max d.lenPages (page_id + 1)
    content := fun q => if q = page_id then data else d.content q }

/-- `allocate_page` (lines 75-80): returns the counter and increments it. -/
def allocate_page (d : DiskManager) : PageId × DiskManager :=
  (d.next_page_id, { d with next_page_id := d.next_page_id + 1 })

end DiskManager

/-! ## Buffer pool manager state machine

One sequential state machine modelling both variants:
`concurrent/src/lib.rs` (`ConcurrentBufferPoolManager`) and
`actor_buffer_pool_manager/src/lib.rs` (`BpmActorState`).  In a
single-operation-at-a-time semantics the two sources perform identical
state transitions: the actor serializes all operations by construction,
and the concurrent variant's latches (including the `try_write` in victim
search, which can never fail with no concurrent holder) guard the very
same updates.  The actor's separate `frames`/`frame_data` vectors are
merged into one `Frame` record, as in the concurrent source. -/

structure Frame where
  page_id : PageId
  data : Page
  pin_count : Nat
  is_dirty : Bool
  is_referenced : Bool

instance : Inhabited Frame :=
  ⟨{ page_id := 0, data := zeroPage, pin_count := 0, is_dirty := false,
     is_referenced := false }⟩

structure BpmState where
  frames : List Frame
  page_table : List (PageId × Nat)
  free_list : List Nat
  disk : DiskManager
  pool_size : Nat
  clock_hand : Nat

namespace BpmState

/-- Assoc-list lookup, modelling `HashMap::get`. -/
def lookupPT (pt : List (PageId × Nat)) (p : PageId) : Option Nat :=
  match pt.find? (fun e => e.1 = p) with
  | some e => some e.2
  | none => none

/-- `HashMap::remove`. -/
def removePT (pt : List (PageId × Nat)) (p : PageId) : List (PageId × Nat) :=
  pt.filter (fun e => e.1 ≠ p)

/-- `HashMap::insert` (the sources never insert an already-present key). -/
def insertPT (pt : List (PageId × Nat)) (p : PageId) (f : Nat) :
    List (PageId × Nat) :=
  (p, f) :: removePT pt p

/-- `ConcurrentBufferPoolManager::new` (lines 183-205) /
`BpmActorState::new` (lines 177-202): `pool_size` frames with dummy
`page_id: 0`, zeroed data, and a free list holding every frame.  Rust's
`Vec::pop` takes the last element, so the free list is kept here in pop
order: frame `pool_size - 1` first. -/
def init (pool_size : Nat) (d : DiskManager) : BpmState :=
  { frames := List.replicate pool_size
      { page_id := 0, data := zeroPage, pin_count := 0, is_dirty := false,
        is_referenced := false }
    page_table := []
    free_list := (List.range pool_size).reverse
    disk := d
    pool_size := pool_size
    clock_hand := 0 }

/-- Frame read (`self.frames[frame_id]`). -/
def frame (s : BpmState) (fid : Nat) : Frame := s.frames.getD fid default

/-- Frame write. -/
def setFrame (s : BpmState) (fid : Nat) (f : Frame) : BpmState :=
  { s with frames := s.frames.set fid f }

/-- The clock loop of `find_victim_frame`
(`concurrent/src/lib.rs` 216-236, `actor_buffer_pool_manager/src/lib.rs`
326-340): at each step, the frame under `clock_hand` is skipped when
pinned, de-referenced and passed over when it has a second chance, and
returned as victim otherwise; the hand always advances modulo
`pool_size`.  `fuel` is the remaining step budget, `2 * pool_size` at
entry. -/
def clockScan : Nat → BpmState → Except Err Nat × BpmState
  | 0, s => (.error .noFreeFrames, s)
  | fuel + 1, s =>
      if (s.frame s.clock_hand).pin_count = 0 then
        if (s.frame s.clock_hand).is_referenced then
          clockScan fuel
            { s.setFrame s.clock_hand
                { s.frame s.clock_hand with is_referenced := false } with
              clock_hand := (s.clock_hand + 1) % s.pool_size }
        else
          (.ok s.clock_hand, { s with clock_hand := (s.clock_hand + 1) % s.pool_size })
      else
        clockScan fuel { s with clock_hand := (s.clock_hand + 1) % s.pool_size }

/-- `find_victim_frame` (`concurrent/src/lib.rs` 208-239,
`actor_buffer_pool_manager/src/lib.rs` 321-343): pop the free list if
non-empty, otherwise run the clock for at most `2 * pool_size` steps. -/
def find_victim_frame (s : BpmState) : Except Err Nat × BpmState :=
  match s.free_list with
  | fid :: rest => (.ok fid, { s with free_list := rest })
  | [] => clockScan (2 * s.pool_size) s

/-- The write-back step shared by the `fetch_page` miss path and
`new_page` (`concurrent/src/lib.rs` 98-100 and 123-125,
`actor_buffer_pool_manager/src/lib.rs` 241-245 and 266-270): if the
victim frame is dirty, write its page back to disk. -/
def evict_prepare (fid : Nat) (s : BpmState) : BpmState :=
  if (s.frame fid).is_dirty
  then { s with disk := s.disk.write_page (s.frame fid).page_id (s.frame fid).data }
  else s

/-- The installation step shared by the `fetch_page` miss path and
`new_page` (`concurrent/src/lib.rs` 102-115 and 127-141,
`actor_buffer_pool_manager/src/lib.rs` 247-258 and 272-284): remove the
victim's old page-table entry, map `p` to the frame, and re-point the
frame at page `p` with a pin count of one. -/
def install_frame (fid : Nat) (p : PageId) (data : Page) (db : Bool)
    (s : BpmState) : BpmState :=
  BpmState.setFrame
    { s with page_table := insertPT (removePT s.page_table (s.frame fid).page_id) p fid }
    fid
    { page_id := p, data := data, pin_count := 1, is_dirty := db,
      is_referenced := true }

/-- `fetch_page` (`concurrent/src/lib.rs` 82-117) / `fetch_page_logic`
(`actor_buffer_pool_manager/src/lib.rs` 232-261).  On a hit: pin and set
the reference bit, returning the frame's bytes.  On a miss: pick a
victim, write it back if dirty, read the target page, re-point the page
table and the frame (`is_dirty := false` for a fetched page).  A failed
disk read aborts after the victim selection and write-back but before
any page-table or frame-metadata update, as in both sources. -/
def fetch_page (p : PageId) (s : BpmState) : Except Err Page × BpmState :=
  match lookupPT s.page_table p with
  | some fid =>
      let f := s.frame fid
      let s := s.setFrame fid { f with pin_count := f.pin_count + 1, is_referenced := true }
      (.ok (s.frame fid).data, s)
  | none =>
      match find_victim_frame s with
      | (.error e, s) => (.error e, s)
      | (.ok fid, s) =>
          let s := evict_prepare fid s
          match s.disk.read_page p with
          | .error e => (.error e, s)
          | .ok data => (.ok data, install_frame fid p data false s)

/-- `new_page` (`concurrent/src/lib.rs` 119-143) / `new_page_logic`
(`actor_buffer_pool_manager/src/lib.rs` 263-287): victim, write-back if
dirty, allocate a fresh page id, zero the frame, mark it dirty
(`is_dirty := true`: a new page is immediately dirty) and pinned,
re-point the page table. -/
def new_page (s : BpmState) : Except Err (PageId × Page) × BpmState :=
  match find_victim_frame s with
  | (.error e, s) => (.error e, s)
  | (.ok fid, s) =>
      let s := evict_prepare fid s
      let new_page_id := (s.disk.allocate_page).1
      let s := { s with disk := (s.disk.allocate_page).2 }
      (.ok (new_page_id, zeroPage),
        install_frame fid new_page_id zeroPage true s)

/-- `unpin_page` (`concurrent/src/lib.rs` 145-154): decrement the pin
count of a resident page, saturating at zero. -/
def unpin_page (p : PageId) (s : BpmState) : Except Err Unit × BpmState :=
  match lookupPT s.page_table p with
  | some fid =>
      let f := s.frame fid
      if f.pin_count > 0 then
        (.ok (), s.setFrame fid { f with pin_count := f.pin_count - 1 })
      else (.ok (), s)
  | none => (.ok (), s)

/-- `unpin_logic` (`actor_buffer_pool_manager/src/lib.rs` 289-299): the
actor's handler for `Unpin { page_id, data, is_dirty }` sent by the page
guard's drop: decrement the pin count (saturating), and when the guard
was dirty, mark the frame dirty and replace its bytes with the guard's
copy. -/
def unpin_logic (p : PageId) (data : Page) (is_dirty : Bool) (s : BpmState) : BpmState :=
  match lookupPT s.page_table p with
  | some fid =>
      let f := s.frame fid
      let f := if f.pin_count > 0 then { f with pin_count := f.pin_count - 1 } else f
      let f := if is_dirty then { f with is_dirty := true, data := data } else f
      s.setFrame fid f
  | none => s

/-- A write through a live `ConcurrentPageGuard` (`deref_mut`,
`concurrent/src/lib.rs` 64-73): sets the frame's dirty bit and mutates
its bytes in place; only possible while the page is pinned. -/
def guard_write (fid : Nat) (data : Page) (s : BpmState) : BpmState :=
  if (s.frame fid).pin_count > 0 then
    s.setFrame fid { s.frame fid with is_dirty := true, data := data }
  else s

/-- `flush_page` (`concurrent/src/lib.rs` 156-166) / `flush_page_logic`
(`actor_buffer_pool_manager/src/lib.rs` 301-310): write back a resident
dirty page and clear its dirty bit. -/
def flush_page (p : PageId) (s : BpmState) : Except Err Unit × BpmState :=
  match lookupPT s.page_table p with
  | some fid =>
      let f := s.frame fid
      if f.is_dirty then
        let s := { s with disk := s.disk.write_page p f.data }
        (.ok (), s.setFrame fid { f with is_dirty := false })
      else (.ok (), s)
  | none => (.ok (), s)

/-- `flush_all_pages` (`concurrent/src/lib.rs` 168-178) /
`flush_all_pages_logic` (`actor_buffer_pool_manager/src/lib.rs` 312-319):
flush every resident dirty frame, iterating over the page table. -/
def flush_all_go (entries : List (PageId × Nat)) (s : BpmState) :
    Except Err Unit × BpmState :=
  match entries with
  | [] => (.ok (), s)
  | e :: rest =>
      match flush_page e.1 s with
      | (.ok _, s) => flush_all_go rest s
      | (.error err, s) => (.error err, s)

def flush_all_pages (s : BpmState) : Except Err Unit × BpmState :=
  flush_all_go s.page_table s

/-- Reachability: every state a pool can be in after any sequence of
operations of either variant, starting from a fresh pool over any disk. -/
inductive Reach : BpmState → Prop where
  | init (pool_size lenPages : Nat) (content : PageId → Page) :
      Reach (init pool_size (DiskManager.new lenPages content))
  | fetch {s} (p : PageId) : Reach s → Reach (fetch_page p s).2
  | newp {s} : Reach s → Reach (new_page s).2
  | unpin {s} (p : PageId) : Reach s → Reach (unpin_page p s).2
  | unpinA {s} (p : PageId) (data : Page) (d : Bool) :
      Reach s → Reach (unpin_logic p data d s)
  | gwrite {s} (fid : Nat) (data : Page) : Reach s → Reach (guard_write fid data s)
  | flush {s} (p : PageId) : Reach s → Reach (flush_page p s).2
  | flushAll {s} : Reach s → Reach (flush_all_pages s).2

/-! ### The buffer pool invariant -/

/-- The inductive invariant carried through every reachable pool state.
`ptConsistent`/`occMapped` together are the residency-consistency law;
the remaining clauses are the bookkeeping needed to push it through each
operation. -/
structure Inv (s : BpmState) : Prop where
  framesLen : s.frames.length = s.pool_size
  ptConsistent : ∀ e ∈ s.page_table,
    e.2 < s.pool_size ∧ (s.frame e.2).page_id = e.1 ∧ e.2 ∉ s.free_list
  ptKeysNodup : (s.page_table.map Prod.fst).Nodup
  freeWF : ∀ f ∈ s.free_list, f < s.pool_size ∧ (s.frame f).page_id = 0 ∧
    (s.frame f).pin_count = 0 ∧ (s.frame f).is_dirty = false
  freeNodup : s.free_list.Nodup
  occMapped : ∀ f, f < s.pool_size → f ∉ s.free_list → (s.frame f).page_id ≠ 0 →
    ((s.frame f).page_id, f) ∈ s.page_table
  ptKeysLt : ∀ e ∈ s.page_table, e.1 < s.disk.next_page_id
  lenLe : s.disk.lenPages ≤ s.disk.next_page_id
  pidLt : ∀ f, f < s.pool_size →
    (s.frame f).page_id = 0 ∨ (s.frame f).page_id < s.disk.next_page_id
  nextZero : s.disk.next_page_id = 0 → s.page_table = [] ∧
    ∀ f, f < s.pool_size → (s.frame f).pin_count = 0 ∧ (s.frame f).is_dirty = false
  handLt : s.pool_size = 0 ∨ s.clock_hand < s.pool_size

theorem frame_setFrame_self (s : BpmState) (fid : Nat) (f : Frame)
    (h : fid < s.frames.length) : (s.setFrame fid f).frame fid = f := by
  simp [BpmState.frame, BpmState.setFrame, List.getD, List.getElem?_set_self h]

theorem frame_setFrame_ne (s : BpmState) (fid g : Nat) (f : Frame)
    (h : g ≠ fid) : (s.setFrame fid f).frame g = s.frame g := by
  simp [BpmState.frame, BpmState.setFrame, List.getD,
    List.getElem?_set_ne (fun hh => h hh.symm)]

theorem lookupPT_mem {pt : List (PageId × Nat)} {p : PageId} {f : Nat}
    (h : BpmState.lookupPT pt p = some f) : (p, f) ∈ pt := by
  unfold BpmState.lookupPT at h
  cases hf : pt.find? (fun e => e.1 = p) with
  | none => simp [hf] at h
  | some e =>
      simp only [hf] at h
      have hmem := List.mem_of_find?_eq_some hf
      have hkey := List.find?_some hf
      simp only [decide_eq_true_eq] at hkey
      cases h
      rw [show (p, e.2) = e by cases e; simp_all]
      exact hmem

theorem lookupPT_none {pt : List (PageId × Nat)} {p : PageId}
    (h : BpmState.lookupPT pt p = none) : ∀ f, (p, f) ∉ pt := by
  intro f hmem
  unfold BpmState.lookupPT at h
  cases hf : pt.find? (fun e => e.1 = p) with
  | some e => simp [hf] at h
  | none =>
      have := List.find?_eq_none.mp hf (p, f) hmem
      simp at this

theorem mem_removePT {pt : List (PageId × Nat)} {p : PageId} {e : PageId × Nat} :
    e ∈ BpmState.removePT pt p ↔ e ∈ pt ∧ e.1 ≠ p := by
  simp [BpmState.removePT, List.mem_filter]

theorem removePT_keys_sublist (pt : List (PageId × Nat)) (p : PageId) :
    ((BpmState.removePT pt p).map Prod.fst).Sublist (pt.map Prod.fst) :=
  List.Sublist.map Prod.fst (List.filter_sublist pt)

theorem mem_insertPT {pt : List (PageId × Nat)} {p : PageId} {f : Nat}
    {e : PageId × Nat} :
    e ∈ BpmState.insertPT pt p f ↔ e = (p, f) ∨ (e ∈ pt ∧ e.1 ≠ p) := by
  simp [BpmState.insertPT, mem_removePT]

theorem insertPT_keys_nodup {pt : List (PageId × Nat)} (p : PageId) (f : Nat)
    (h : (pt.map Prod.fst).Nodup) :
    ((BpmState.insertPT pt p f).map Prod.fst).Nodup := by
  simp only [BpmState.insertPT, List.map_cons, List.nodup_cons]
  refine ⟨?_, (removePT_keys_sublist pt p).nodup h⟩
  intro hmem
  obtain ⟨e, he, hkey⟩ := List.mem_map.mp hmem
  exact (mem_removePT.mp he).2 hkey

/-- With distinct keys, a key's entry is unique. -/
theorem ptKeys_unique {pt : List (PageId × Nat)}
    (h : (pt.map Prod.fst).Nodup) {p : PageId} {f g : Nat}
    (h1 : (p, f) ∈ pt) (h2 : (p, g) ∈ pt) : f = g := by
  induction pt with
  | nil => cases h1
  | cons e rest ih =>
      simp only [List.map_cons, List.nodup_cons] at h
      rcases List.mem_cons.mp h1 with rfl | h1'
      · rcases List.mem_cons.mp h2 with he | h2'
        · cases he; rfl
        · exact absurd (List.mem_map.mpr ⟨(p, g), h2', rfl⟩) h.1
      · rcases List.mem_cons.mp h2 with rfl | h2'
        · exact absurd (List.mem_map.mpr ⟨(p, f), h1', rfl⟩) h.1
        · exact ih h.2 h1' h2'

theorem frame_setFrame (s : BpmState) (fid : Nat) (f : Frame) (g : Nat) :
    (s.setFrame fid f).frame g =
      if g = fid ∧ fid < s.frames.length then f else s.frame g := by
  split
  · next h =>
      obtain ⟨h1, h2⟩ := h
      subst h1
      exact frame_setFrame_self s g f h2
  · next h =>
      by_cases hg : g = fid
      · subst hg
        have hlen : s.frames.length ≤ g := by
          by_contra hc; exact h ⟨rfl, by omega⟩
        have hlen2 : (s.frames.set g f).length ≤ g := by simpa using hlen
        simp [BpmState.frame, BpmState.setFrame, List.getD,
          List.getElem?_eq_none (by simpa using hlen),
          List.getElem?_eq_none hlen2]
      · exact frame_setFrame_ne s fid g f hg

theorem setFrame_length (s : BpmState) (fid : Nat) (f : Frame) :
    (s.setFrame fid f).frames.length = s.frames.length := by
  simp [BpmState.setFrame]

/-- "Same state up to reference bits and the clock hand": what a clock
scan may change. -/
def ScanEq (s s' : BpmState) : Prop :=
  s'.page_table = s.page_table ∧ s'.free_list = s.free_list ∧
  s'.disk = s.disk ∧ s'.pool_size = s.pool_size ∧
  s'.frames.length = s.frames.length ∧
  ∀ f, (s'.frame f).page_id = (s.frame f).page_id ∧
    (s'.frame f).pin_count = (s.frame f).pin_count ∧
    (s'.frame f).is_dirty = (s.frame f).is_dirty ∧
    (s'.frame f).data = (s.frame f).data

theorem scanEq_refl (s : BpmState) : ScanEq s s :=
  ⟨rfl, rfl, rfl, rfl, rfl, fun _ => ⟨rfl, rfl, rfl, rfl⟩⟩

theorem scanEq_trans {s t u : BpmState} (h1 : ScanEq s t) (h2 : ScanEq t u) :
    ScanEq s u := by
  obtain ⟨a1, a2, a3, a4, a5, a6⟩ := h1
  obtain ⟨b1, b2, b3, b4, b5, b6⟩ := h2
  refine ⟨b1.trans a1, b2.trans a2, b3.trans a3, b4.trans a4, b5.trans a5,
    fun f => ?_⟩
  obtain ⟨c1, c2, c3, c4⟩ := a6 f
  obtain ⟨d1, d2, d3, d4⟩ := b6 f
  exact ⟨d1.trans c1, d2.trans c2, d3.trans c3, d4.trans c4⟩

theorem scanEq_hand (s : BpmState) (h : Nat) :
    ScanEq s { s with clock_hand := h } :=
  ⟨rfl, rfl, rfl, rfl, rfl, fun _ => ⟨rfl, rfl, rfl, rfl⟩⟩

theorem scanEq_setFrame_hand (s : BpmState) (fid : Nat) (nf : Frame) (h : Nat)
    (hpid : nf.page_id = (s.frame fid).page_id)
    (hpin : nf.pin_count = (s.frame fid).pin_count)
    (hdirty : nf.is_dirty = (s.frame fid).is_dirty)
    (hdata : nf.data = (s.frame fid).data) :
    ScanEq s { s.setFrame fid nf with clock_hand := h } := by
  refine ⟨rfl, rfl, rfl, rfl, setFrame_length s fid nf, fun f => ?_⟩
  have hf : ({ s.setFrame fid nf with clock_hand := h } : BpmState).frame f =
      (s.setFrame fid nf).frame f := rfl
  rw [hf, frame_setFrame]
  split
  · next he => rw [he.1, hpid, hpin, hdirty, hdata]; exact ⟨rfl, rfl, rfl, rfl⟩
  · exact ⟨rfl, rfl, rfl, rfl⟩

/-- The clock scan touches only reference bits and the clock hand. -/
theorem clockScan_scanEq (fuel : Nat) (s : BpmState) :
    ScanEq s (clockScan fuel s).2 := by
  induction fuel generalizing s with
  | zero => exact scanEq_refl s
  | succ fuel ih =>
      unfold clockScan
      split
      · split
        · refine scanEq_trans ?_ (ih _)
          exact scanEq_setFrame_hand s s.clock_hand _ _ rfl rfl rfl rfl
        · exact scanEq_hand s _
      · exact scanEq_trans (scanEq_hand s _) (ih _)

/-- A clock victim is unpinned at selection time. -/
theorem clockScan_ok_pin {fuel : Nat} {s : BpmState} {fid : Nat} {s' : BpmState}
    (h : clockScan fuel s = (.ok fid, s')) : (s.frame fid).pin_count = 0 := by
  induction fuel generalizing s with
  | zero => simp [clockScan] at h
  | succ fuel ih =>
      unfold clockScan at h
      split at h
      · split at h
        · have h1 := ih h
          have h2 : ((s.setFrame s.clock_hand
              { s.frame s.clock_hand with is_referenced := false }).frame fid).pin_count
                = 0 := h1
          rw [frame_setFrame] at h2
          revert h2
          split
          · next he => intro _; rw [he.1]; assumption
          · exact id
        · next hpin _ =>
            cases h
            exact hpin
      · have h1 := ih h
        exact h1

/-- A clock victim is a real frame index. -/
theorem clockScan_ok_lt {fuel : Nat} {s : BpmState} {fid : Nat} {s' : BpmState}
    (h : clockScan fuel s = (.ok fid, s')) (hhand : s.clock_hand < s.pool_size) :
    fid < s.pool_size := by
  induction fuel generalizing s with
  | zero => simp [clockScan] at h
  | succ fuel ih =>
      have hpos : 0 < s.pool_size := by omega
      unfold clockScan at h
      split at h
      · split at h
        · have h1 := ih h (Nat.mod_lt _ hpos)
          exact h1
        · cases h
          exact hhand
      · have h1 := ih h (Nat.mod_lt _ hpos)
        exact h1

/-- With every frame pinned, the scan only walks the hand around; after
`2 * pool_size` steps the hand is back where it started and the search
fails with `NoFreeFrames`. -/
theorem clockScan_all_pinned : ∀ (fuel : Nat) (s : BpmState),
    (∀ f, f < s.pool_size → (s.frame f).pin_count ≠ 0) →
    s.clock_hand < s.pool_size →
    clockScan fuel s =
      (.error .noFreeFrames,
        { s with clock_hand := (s.clock_hand + fuel) % s.pool_size })
  | 0, s, _, hhand => by
      simp [clockScan, Nat.mod_eq_of_lt hhand]
  | fuel + 1, s, hall, hhand => by
      have hpos : 0 < s.pool_size := by omega
      unfold clockScan
      rw [if_neg (hall s.clock_hand hhand)]
      have hrec := clockScan_all_pinned fuel
        { s with clock_hand := (s.clock_hand + 1) % s.pool_size }
        hall (Nat.mod_lt _ hpos)
      rw [hrec]
      have harith : ((s.clock_hand + 1) % s.pool_size + fuel) % s.pool_size =
          (s.clock_hand + (fuel + 1)) % s.pool_size := by
        rw [Nat.mod_add_mod]
        ring_nf
      rw [harith]

/-- Circular distance from the hand to a target frame. -/
def clockDist (hand u n : Nat) : Nat :=
  if hand ≤ u then u - hand else u + n - hand

theorem clockDist_pos {hand u n : Nat} (h : hand ≠ u) (_hu : u < n)
    (hh : hand < n) : 0 < clockDist hand u n := by
  unfold clockDist
  split <;> omega

theorem clockDist_lt {hand u n : Nat} (hu : u < n) (hh : hand < n) :
    clockDist hand u n < n := by
  unfold clockDist
  split <;> omega

theorem clockDist_step {hand u n : Nat} (h : hand ≠ u) (hu : u < n)
    (hh : hand < n) :
    clockDist ((hand + 1) % n) u n = clockDist hand u n - 1 := by
  by_cases h1 : hand + 1 = n
  · rw [h1, Nat.mod_self]
    unfold clockDist
    split <;> split <;> omega
  · rw [Nat.mod_eq_of_lt (by omega)]
    unfold clockDist
    split <;> split <;> omega

/-- If some unpinned frame has its reference bit already cleared, the scan
succeeds as soon as the fuel covers the distance to it. -/
theorem clockScan_hits_clean : ∀ (fuel : Nat) (s : BpmState) (u : Nat),
    s.frames.length = s.pool_size → u < s.pool_size →
    s.clock_hand < s.pool_size →
    (s.frame u).pin_count = 0 → (s.frame u).is_referenced = false →
    clockDist s.clock_hand u s.pool_size < fuel →
    ∃ fid s', clockScan fuel s = (.ok fid, s')
  | 0, _, _, _, _, _, _, _, hd => absurd hd (by omega)
  | fuel + 1, s, u, hlen, hu, hhand, hupin, huref, hd => by
      have hpos : 0 < s.pool_size := by omega
      unfold clockScan
      by_cases hpin : (s.frame s.clock_hand).pin_count = 0
      · rw [if_pos hpin]
        by_cases href : (s.frame s.clock_hand).is_referenced = true
        · have hne : s.clock_hand ≠ u := by
            intro he; rw [he, huref] at href; cases href
          rw [if_pos href]
          have hstep := clockDist_step hne hu hhand
          have hpos' := clockDist_pos hne hu hhand
          apply clockScan_hits_clean fuel _ u
          · simpa [BpmState.setFrame] using hlen
          · exact hu
          · exact Nat.mod_lt _ hpos
          · show ((s.setFrame s.clock_hand
              { s.frame s.clock_hand with is_referenced := false }).frame u).pin_count = 0
            rw [frame_setFrame, if_neg (by intro he; exact hne he.1.symm)]
            exact hupin
          · show ((s.setFrame s.clock_hand
              { s.frame s.clock_hand with is_referenced := false }).frame u).is_referenced
                = false
            rw [frame_setFrame, if_neg (by intro he; exact hne he.1.symm)]
            exact huref
          · show clockDist ((s.clock_hand + 1) % s.pool_size) u s.pool_size < fuel
            omega
        · rw [if_neg href]
          exact ⟨s.clock_hand, _, rfl⟩
      · rw [if_neg hpin]
        have hne : s.clock_hand ≠ u := by
          intro he; rw [he, hupin] at hpin; exact hpin rfl
        have hstep := clockDist_step hne hu hhand
        have hpos' := clockDist_pos hne hu hhand
        apply clockScan_hits_clean fuel _ u
        · exact hlen
        · exact hu
        · exact Nat.mod_lt _ hpos
        · exact hupin
        · exact huref
        · show clockDist ((s.clock_hand + 1) % s.pool_size) u s.pool_size < fuel
          omega

/-- If any frame at all is unpinned, a scan budget of
`pool_size + distance + 1` steps suffices; with the code's `2 * pool_size`
budget the clock therefore never spuriously reports `NoFreeFrames`. -/
theorem clockScan_hits : ∀ (fuel : Nat) (s : BpmState) (u : Nat),
    s.frames.length = s.pool_size → u < s.pool_size →
    s.clock_hand < s.pool_size → (s.frame u).pin_count = 0 →
    s.pool_size + clockDist s.clock_hand u s.pool_size < fuel →
    ∃ fid s', clockScan fuel s = (.ok fid, s')
  | 0, s, _, _, _, _, _, hd => absurd hd (by omega)
  | fuel + 1, s, u, hlen, hu, hhand, hupin, hd => by
      have hpos : 0 < s.pool_size := by omega
      unfold clockScan
      by_cases hpin : (s.frame s.clock_hand).pin_count = 0
      · rw [if_pos hpin]
        by_cases href : (s.frame s.clock_hand).is_referenced = true
        · rw [if_pos href]
          by_cases hne : s.clock_hand = u
          · subst hne
            apply clockScan_hits_clean fuel _ s.clock_hand
            · simpa [BpmState.setFrame] using hlen
            · exact hu
            · exact Nat.mod_lt _ hpos
            · show ((s.setFrame s.clock_hand
                { s.frame s.clock_hand with is_referenced := false }).frame
                  s.clock_hand).pin_count = 0
              rw [frame_setFrame, if_pos ⟨rfl, by omega⟩]
              exact hupin
            · show ((s.setFrame s.clock_hand
                { s.frame s.clock_hand with is_referenced := false }).frame
                  s.clock_hand).is_referenced = false
              rw [frame_setFrame, if_pos ⟨rfl, by omega⟩]
            · show clockDist ((s.clock_hand + 1) % s.pool_size) s.clock_hand
                s.pool_size < fuel
              have := clockDist_lt hu (Nat.mod_lt (s.clock_hand + 1) hpos)
              omega
          · have hstep := clockDist_step hne hu hhand
            have hpos' := clockDist_pos hne hu hhand
            apply clockScan_hits fuel _ u
            · simpa [BpmState.setFrame] using hlen
            · exact hu
            · exact Nat.mod_lt _ hpos
            · show ((s.setFrame s.clock_hand
                { s.frame s.clock_hand with is_referenced := false }).frame u).pin_count
                  = 0
              rw [frame_setFrame, if_neg (by intro he; exact hne he.1.symm)]
              exact hupin
            · show s.pool_size +
                clockDist ((s.clock_hand + 1) % s.pool_size) u s.pool_size < fuel
              omega
        · rw [if_neg href]
          exact ⟨s.clock_hand, _, rfl⟩
      · rw [if_neg hpin]
        have hne : s.clock_hand ≠ u := by
          intro he; rw [he, hupin] at hpin; exact hpin rfl
        have hstep := clockDist_step hne hu hhand
        have hpos' := clockDist_pos hne hu hhand
        apply clockScan_hits fuel _ u
        · exact hlen
        · exact hu
        · exact Nat.mod_lt _ hpos
        · exact hupin
        · show s.pool_size +
            clockDist ((s.clock_hand + 1) % s.pool_size) u s.pool_size < fuel
          omega

/-- Full characterization of `find_victim_frame`'s two branches. -/
theorem find_victim_cases {s : BpmState} {fid : Nat} {s1 : BpmState}
    (h : find_victim_frame s = (.ok fid, s1)) :
    (∃ rest, s.free_list = fid :: rest ∧ s1 = { s with free_list := rest }) ∨
    (s.free_list = [] ∧ ScanEq s s1 ∧
      clockScan (2 * s.pool_size) s = (.ok fid, s1)) := by
  cases hfl : s.free_list with
  | cons f rest =>
      have h' : find_victim_frame s =
          ((.ok f : Except Err Nat), { s with free_list := rest }) := by
        unfold find_victim_frame
        rw [hfl]
      rw [h'] at h
      injection h with ha hb
      injection ha with hc
      subst hc
      subst hb
      exact Or.inl ⟨rest, rfl, rfl⟩
  | nil =>
      have h' : find_victim_frame s = clockScan (2 * s.pool_size) s := by
        unfold find_victim_frame
        rw [hfl]
      rw [h'] at h
      refine Or.inr ⟨rfl, ?_, h⟩
      have hs := clockScan_scanEq (2 * s.pool_size) s
      rw [h] at hs
      exact hs

theorem clockScan_ok_hand {fuel : Nat} {s : BpmState} {fid : Nat} {s' : BpmState}
    (h : clockScan fuel s = (.ok fid, s')) (hpos : 0 < s.pool_size) :
    s'.clock_hand < s'.pool_size := by
  induction fuel generalizing s with
  | zero => simp [clockScan] at h
  | succ fuel ih =>
      unfold clockScan at h
      split at h
      · split at h
        · exact ih h hpos
        · cases h
          exact Nat.mod_lt _ hpos
      · exact ih h hpos

/-- What holds after a successful victim search, under the invariant. -/
theorem victim_post {s : BpmState} {fid : Nat} {s1 : BpmState} (hInv : Inv s)
    (h : find_victim_frame s = (.ok fid, s1)) :
    Inv s1 ∧ fid < s1.pool_size ∧ (s1.frame fid).pin_count = 0 ∧
    fid ∉ s1.free_list ∧ s1.page_table = s.page_table ∧ s1.disk = s.disk ∧
    s1.pool_size = s.pool_size ∧ s1.frames.length = s.frames.length ∧
    (∀ f, (s1.frame f).page_id = (s.frame f).page_id ∧
      (s1.frame f).pin_count = (s.frame f).pin_count ∧
      (s1.frame f).is_dirty = (s.frame f).is_dirty ∧
      (s1.frame f).data = (s.frame f).data) := by
  obtain ⟨hlen, hpt, hnd, hfree, hfnd, hocc, hklt, hle, hplt, hz, hh⟩ := hInv
  rcases find_victim_cases h with ⟨rest, hcons, hs1⟩ | ⟨hnil, hscan, hclock⟩
  · obtain ⟨hf1, hf2, hf3, hf4⟩ :=
      hfree fid (by rw [hcons]; exact List.mem_cons_self _ _)
    have hnodup : fid ∉ rest := by
      have hn := hfnd
      rw [hcons] at hn
      exact (List.nodup_cons.mp hn).1
    subst hs1
    refine ⟨⟨hlen, ?_, hnd, ?_, ?_, ?_, hklt, hle, hplt, ?_, hh⟩,
      hf1, hf3, hnodup, rfl, rfl, rfl, rfl, fun f => ⟨rfl, rfl, rfl, rfl⟩⟩
    · intro e he
      obtain ⟨a, b, c⟩ := hpt e he
      refine ⟨a, b, fun hmem => c ?_⟩
      rw [hcons]
      exact List.mem_cons_of_mem _ hmem
    · intro f hf
      exact hfree f (by rw [hcons]; exact List.mem_cons_of_mem _ hf)
    · have hn := hfnd
      rw [hcons] at hn
      exact (List.nodup_cons.mp hn).2
    · intro f hf hfree1 hpid
      apply hocc f hf _ hpid
      intro hmem
      rw [hcons] at hmem
      rcases List.mem_cons.mp hmem with rfl | hmem'
      · exact hpid hf2
      · exact hfree1 hmem'
    · intro hzz
      obtain ⟨hz1, hz2⟩ := hz hzz
      exact ⟨hz1, hz2⟩
  · have hpos : 0 < s.pool_size := by
      by_contra hc
      have hz0 : s.pool_size = 0 := by omega
      rw [hz0] at hclock
      simp [clockScan] at hclock
    obtain ⟨e1, e2, e3, e4, e5, e6⟩ := hscan
    have hvpin := clockScan_ok_pin hclock
    have hflt := clockScan_ok_lt hclock (by rcases hh with h0 | h0; omega; exact h0)
    have hhand1 := clockScan_ok_hand hclock hpos
    refine ⟨⟨by rw [e5, e4]; exact hlen, ?_, by rw [e1]; exact hnd, ?_,
      by rw [e2]; exact hfnd, ?_, ?_, by rw [e3]; exact hle, ?_, ?_,
      Or.inr hhand1⟩,
      by rw [e4]; exact hflt, by rw [(e6 fid).2.1]; exact hvpin,
      by rw [e2, hnil]; exact List.not_mem_nil fid, e1, e3, e4, e5,
      e6⟩
    · intro e he
      rw [e1] at he
      obtain ⟨a, b, c⟩ := hpt e he
      exact ⟨by rw [e4]; exact a, by rw [(e6 e.2).1]; exact b, by rw [e2]; exact c⟩
    · intro f hf
      rw [e2] at hf
      obtain ⟨a, b, c, d⟩ := hfree f hf
      exact ⟨by rw [e4]; exact a, by rw [(e6 f).1]; exact b,
        by rw [(e6 f).2.1]; exact c, by rw [(e6 f).2.2.1]; exact d⟩
    · intro f hf hfree1 hpid
      rw [e1]
      rw [(e6 f).1] at hpid
      rw [e4] at hf
      rw [e2] at hfree1
      have hm := hocc f hf hfree1 hpid
      rw [(e6 f).1]
      exact hm
    · intro e he
      rw [e1] at he
      rw [e3]
      exact hklt e he
    · intro f hf
      rw [e4] at hf
      rw [(e6 f).1, e3]
      exact hplt f hf
    · intro hzz
      rw [e3] at hzz
      obtain ⟨hz1, hz2⟩ := hz hzz
      refine ⟨by rw [e1]; exact hz1, fun f hf => ?_⟩
      rw [e4] at hf
      obtain ⟨a, b⟩ := hz2 f hf
      exact ⟨by rw [(e6 f).2.1]; exact a, by rw [(e6 f).2.2.1]; exact b⟩

/-- A disk write-back alone preserves the invariant (it can only extend
the file, never past the allocator). -/
theorem Inv_write_page {u : BpmState} (hInv : Inv u) (pid : PageId) (dt : Page)
    (h0 : pid = 0 → 0 < u.disk.next_page_id)
    (hlt : pid = 0 ∨ pid < u.disk.next_page_id) :
    Inv { u with disk := u.disk.write_page pid dt } := by
  obtain ⟨hlen, hpt, hnd, hfree, hfnd, hocc, hklt, hle, hplt, hz, hh⟩ := hInv
  refine ⟨hlen, hpt, hnd, hfree, hfnd, hocc, hklt, ?_, hplt, ?_, hh⟩
  · show max u.disk.lenPages (pid + 1) ≤ u.disk.next_page_id
    rcases hlt with rfl | h2
    · exact Nat.max_le.mpr ⟨hle, h0 rfl⟩
    · exact Nat.max_le.mpr ⟨hle, h2⟩
  · intro hzz
    exact hz hzz

/-- Re-pointing a victim frame at a fresh target page (shared tail of the
`fetch_page` miss path and of `new_page`) preserves the invariant. -/
theorem Inv_rebind {u : BpmState} (hInv : Inv u) (fid : Nat) (p : PageId)
    (dt : Page) (db : Bool)
    (hfid : fid < u.pool_size) (hfr : fid ∉ u.free_list)
    (hp : p < u.disk.next_page_id)
    (hmiss : lookupPT u.page_table p = none) :
    Inv (BpmState.setFrame
      { u with page_table :=
          insertPT (removePT u.page_table (u.frame fid).page_id) p fid }
      fid
      { page_id := p, data := dt, pin_count := 1, is_dirty := db,
        is_referenced := true }) := by
  obtain ⟨hlen, hpt, hnd, hfree, hfnd, hocc, hklt, hle, hplt, hz, hh⟩ := hInv
  set old := (u.frame fid).page_id with hold
  set nf : Frame := (⟨p, dt, 1, db, true⟩ : Frame) with hnf
  have hframe : ∀ g,
      (BpmState.setFrame
        { u with page_table := insertPT (removePT u.page_table old) p fid }
        fid nf).frame g =
      if g = fid ∧ fid < u.frames.length then nf else u.frame g := by
    intro g
    exact frame_setFrame _ fid nf g
  have hfl : fid < u.frames.length := by rw [hlen]; exact hfid
  have hnontriv : 0 < u.disk.next_page_id :=
    Nat.lt_of_le_of_lt (Nat.zero_le p) hp
  refine ⟨?_, ?_, ?_, ?_, hfnd, ?_, ?_, hle, ?_, ?_, hh⟩
  · show (u.frames.set fid nf).length = u.pool_size
    simpa using hlen
  · intro e he
    have he' : e = (p, fid) ∨ (e ∈ removePT u.page_table old ∧ e.1 ≠ p) :=
      mem_insertPT.mp he
    rcases he' with rfl | ⟨hin, hne⟩
    · refine ⟨hfid, ?_, hfr⟩
      rw [hframe, if_pos ⟨rfl, hfl⟩]
    · obtain ⟨hin', hneold⟩ := mem_removePT.mp hin
      obtain ⟨a, b, c⟩ := hpt e hin'
      have hne2 : e.2 ≠ fid := by
        intro hcon
        rw [hcon] at b
        exact hneold (b.symm ▸ rfl)
      refine ⟨a, ?_, c⟩
      rw [hframe, if_neg (fun hcon => hne2 hcon.1)]
      exact b
  · exact insertPT_keys_nodup p fid ((removePT_keys_sublist _ _).nodup hnd)
  · intro f hf
    obtain ⟨a, b, c, d⟩ := hfree f hf
    have hne : f ≠ fid := fun hcon => hfr (hcon ▸ hf)
    rw [hframe, if_neg (fun hcon => hne hcon.1)]
    exact ⟨a, b, c, d⟩
  · intro f hf hfree1 hpid
    rw [hframe] at hpid ⊢
    by_cases hffid : f = fid ∧ fid < u.frames.length
    · rw [if_pos hffid]
      rw [hffid.1]
      exact List.mem_cons_self _ _
    · rw [if_neg hffid] at hpid ⊢
      have hne : f ≠ fid := by
        intro hcon
        exact hffid ⟨hcon, hfl⟩
      have hmem := hocc f hf hfree1 hpid
      apply mem_insertPT.mpr
      right
      constructor
      · apply mem_removePT.mpr
        refine ⟨hmem, ?_⟩
        intro hcon
        have hcon' : (u.frame f).page_id = (u.frame fid).page_id := hcon
        have hfidocc : ((u.frame fid).page_id, fid) ∈ u.page_table := by
          apply hocc fid hfid hfr
          rw [← hcon']
          exact hpid
        have heq := ptKeys_unique hnd (hcon' ▸ hmem) hfidocc
        exact hne heq
      · intro hcon
        have hcon' : (u.frame f).page_id = p := hcon
        exact lookupPT_none hmiss f (hcon' ▸ hmem)
  · intro e he
    rcases mem_insertPT.mp he with rfl | ⟨hin, _⟩
    · exact hp
    · exact hklt e (mem_removePT.mp hin).1
  · intro f hf
    rw [hframe]
    by_cases hffid : f = fid ∧ fid < u.frames.length
    · rw [if_pos hffid]
      exact Or.inr hp
    · rw [if_neg hffid]
      exact hplt f hf
  · intro hzz
    exact absurd (show u.disk.next_page_id = 0 from hzz)
      (Nat.pos_iff_ne_zero.mp hnontriv)

/-- Changing a frame's pin count, dirty bit, reference bit or bytes —
anything but its page id — preserves the invariant, provided a free frame
stays pristine and a fresh pool stays unpinned and clean. -/
theorem Inv_touch {u : BpmState} (hInv : Inv u) (fid : Nat) (nf : Frame)
    (hpid : nf.page_id = (u.frame fid).page_id)
    (hfreeok : fid ∈ u.free_list → nf.pin_count = 0 ∧ nf.is_dirty = false)
    (hzok : u.disk.next_page_id = 0 → nf.pin_count = 0 ∧ nf.is_dirty = false) :
    Inv (u.setFrame fid nf) := by
  obtain ⟨hlen, hpt, hnd, hfree, hfnd, hocc, hklt, hle, hplt, hz, hh⟩ := hInv
  have hframe : ∀ g, (u.setFrame fid nf).frame g =
      if g = fid ∧ fid < u.frames.length then nf else u.frame g :=
    fun g => frame_setFrame u fid nf g
  refine ⟨?_, ?_, hnd, ?_, hfnd, ?_, hklt, hle, ?_, ?_, hh⟩
  · show (u.frames.set fid nf).length = u.pool_size
    simpa using hlen
  · intro e he
    obtain ⟨a, b, c⟩ := hpt e he
    refine ⟨a, ?_, c⟩
    rw [hframe]
    split
    · next hc => rw [hpid, ← hc.1]; exact b
    · exact b
  · intro f hf
    obtain ⟨a, b, c, d⟩ := hfree f hf
    rw [hframe]
    split
    · next hc =>
        obtain ⟨hp0, hd0⟩ := hfreeok (hc.1 ▸ hf)
        exact ⟨a, by rw [hpid, ← hc.1]; exact b, hp0, hd0⟩
    · exact ⟨a, b, c, d⟩
  · intro f hf hfree1 hpid1
    rw [hframe] at hpid1 ⊢
    by_cases hc : f = fid ∧ fid < u.frames.length
    · rw [if_pos hc] at hpid1 ⊢
      rw [hpid] at hpid1 ⊢
      obtain ⟨rfl, hlt2⟩ := hc
      exact hocc f hf hfree1 hpid1
    · rw [if_neg hc] at hpid1 ⊢
      exact hocc f hf hfree1 hpid1
  · intro f hf
    rw [hframe]
    split
    · next hc =>
        rw [hpid]
        exact hplt fid (by rw [← hlen]; exact hc.2)
    · exact hplt f hf
  · intro hzz
    obtain ⟨hz1, hz2⟩ := hz hzz
    refine ⟨hz1, fun f hf => ?_⟩
    rw [hframe]
    split
    · exact hzok hzz
    · exact hz2 f hf

/-- `ScanEq` plus a valid hand preserves the invariant (clock sweeps do
not disturb it). -/
theorem Inv_scanEq {s s1 : BpmState} (hInv : Inv s) (hscan : ScanEq s s1)
    (hhand1 : s1.pool_size = 0 ∨ s1.clock_hand < s1.pool_size) : Inv s1 := by
  obtain ⟨hlen, hpt, hnd, hfree, hfnd, hocc, hklt, hle, hplt, hz, _⟩ := hInv
  obtain ⟨e1, e2, e3, e4, e5, e6⟩ := hscan
  refine ⟨by rw [e5, e4]; exact hlen, ?_, by rw [e1]; exact hnd, ?_,
    by rw [e2]; exact hfnd, ?_, ?_, by rw [e3]; exact hle, ?_, ?_, hhand1⟩
  · intro e he
    rw [e1] at he
    obtain ⟨a, b, c⟩ := hpt e he
    exact ⟨by rw [e4]; exact a, by rw [(e6 e.2).1]; exact b, by rw [e2]; exact c⟩
  · intro f hf
    rw [e2] at hf
    obtain ⟨a, b, c, d⟩ := hfree f hf
    exact ⟨by rw [e4]; exact a, by rw [(e6 f).1]; exact b,
      by rw [(e6 f).2.1]; exact c, by rw [(e6 f).2.2.1]; exact d⟩
  · intro f hf hfree1 hpid
    rw [e1]
    rw [(e6 f).1] at hpid
    rw [e4] at hf
    rw [e2] at hfree1
    have hm := hocc f hf hfree1 hpid
    rw [(e6 f).1]
    exact hm
  · intro e he
    rw [e1] at he
    rw [e3]
    exact hklt e he
  · intro f hf
    rw [e4] at hf
    rw [(e6 f).1, e3]
    exact hplt f hf
  · intro hzz
    rw [e3] at hzz
    obtain ⟨hz1, hz2⟩ := hz hzz
    refine ⟨by rw [e1]; exact hz1, fun f hf => ?_⟩
    rw [e4] at hf
    obtain ⟨a, b⟩ := hz2 f hf
    exact ⟨by rw [(e6 f).2.1]; exact a, by rw [(e6 f).2.2.1]; exact b⟩

/-- The clock hand stays valid through a scan. -/
theorem clockScan_handLt (fuel : Nat) (s : BpmState)
    (h : s.pool_size = 0 ∨ s.clock_hand < s.pool_size) :
    (clockScan fuel s).2.pool_size = 0 ∨
      (clockScan fuel s).2.clock_hand < (clockScan fuel s).2.pool_size := by
  induction fuel generalizing s with
  | zero => exact h
  | succ fuel ih =>
      unfold clockScan
      split
      · split
        · apply ih
          rcases h with h0 | _
          · exact Or.inl h0
          · exact Or.inr (Nat.mod_lt _ (by omega))
        · rcases h with h0 | _
          · exact Or.inl h0
          · exact Or.inr (Nat.mod_lt _ (by omega))
      · apply ih
        rcases h with h0 | _
        · exact Or.inl h0
        · exact Or.inr (Nat.mod_lt _ (by omega))

/-- Characterization of a failed victim search. -/
theorem find_victim_err {s : BpmState} {e : Err} {s1 : BpmState}
    (h : find_victim_frame s = (.error e, s1)) :
    s.free_list = [] ∧ ScanEq s s1 ∧
      (s1.pool_size = 0 ∨ s1.clock_hand < s1.pool_size →
        s1.pool_size = 0 ∨ s1.clock_hand < s1.pool_size) ∧
      clockScan (2 * s.pool_size) s = (.error e, s1) := by
  cases hfl : s.free_list with
  | cons f rest =>
      have h' : find_victim_frame s =
          ((.ok f : Except Err Nat), { s with free_list := rest }) := by
        unfold find_victim_frame
        rw [hfl]
      rw [h'] at h
      cases h
  | nil =>
      have h' : find_victim_frame s = clockScan (2 * s.pool_size) s := by
        unfold find_victim_frame
        rw [hfl]
      rw [h'] at h
      refine ⟨rfl, ?_, fun x => x, h⟩
      have hs := clockScan_scanEq (2 * s.pool_size) s
      rw [h] at hs
      exact hs

/-- Allocating a page id preserves the invariant. -/
theorem Inv_allocate {u : BpmState} (hInv : Inv u) :
    Inv { u with disk := (u.disk.allocate_page).2 } := by
  obtain ⟨hlen, hpt, hnd, hfree, hfnd, hocc, hklt, hle, hplt, hz, hh⟩ := hInv
  refine ⟨hlen, hpt, hnd, hfree, hfnd, hocc, ?_, ?_, ?_, ?_, hh⟩
  · intro e he
    exact Nat.lt_succ_of_lt (hklt e he)
  · exact Nat.le_succ_of_le hle
  · intro f hf
    rcases hplt f hf with h0 | h0
    · exact Or.inl h0
    · exact Or.inr (Nat.lt_succ_of_lt h0)
  · intro hzz
    exact absurd (show u.disk.next_page_id + 1 = 0 from hzz)
      (Nat.succ_ne_zero _)

theorem lookupPT_none_of_lt {pt : List (PageId × Nat)} {p : PageId}
    (h : ∀ e ∈ pt, e.1 < p) : BpmState.lookupPT pt p = none := by
  unfold BpmState.lookupPT
  cases hf : pt.find? (fun e => e.1 = p) with
  | none => rfl
  | some e =>
      have hmem := List.mem_of_find?_eq_some hf
      have hkey := List.find?_some hf
      simp only [decide_eq_true_eq] at hkey
      exact absurd hkey (Nat.ne_of_lt (h e hmem))

theorem read_page_ok_lt {d : DiskManager} {p : PageId} {pg : Page}
    (h : d.read_page p = .ok pg) : p < d.lenPages := by
  unfold DiskManager.read_page at h
  split at h
  · assumption
  · cases h

theorem evict_prepare_pt (fid : Nat) (s : BpmState) :
    (evict_prepare fid s).page_table = s.page_table := by
  unfold evict_prepare; split <;> rfl

theorem evict_prepare_free (fid : Nat) (s : BpmState) :
    (evict_prepare fid s).free_list = s.free_list := by
  unfold evict_prepare; split <;> rfl

theorem evict_prepare_frames (fid : Nat) (s : BpmState) :
    (evict_prepare fid s).frames = s.frames := by
  unfold evict_prepare; split <;> rfl

theorem evict_prepare_pool (fid : Nat) (s : BpmState) :
    (evict_prepare fid s).pool_size = s.pool_size := by
  unfold evict_prepare; split <;> rfl

theorem evict_prepare_next (fid : Nat) (s : BpmState) :
    (evict_prepare fid s).disk.next_page_id = s.disk.next_page_id := by
  unfold evict_prepare; split <;> rfl

theorem Inv_evict_prepare {s : BpmState} (hInv : Inv s) (fid : Nat)
    (hfid : fid < s.pool_size) : Inv (evict_prepare fid s) := by
  unfold evict_prepare
  split
  · next hd =>
      apply Inv_write_page hInv
      · intro hz0
        by_contra hc
        have hznext : s.disk.next_page_id = 0 := Nat.eq_zero_of_not_pos hc
        have hcl := (hInv.nextZero hznext).2 fid hfid
        rw [hcl.2] at hd
        cases hd
      · exact hInv.pidLt fid hfid
  · exact hInv

theorem Inv_install_frame {u : BpmState} (hInv : Inv u) (fid : Nat)
    (p : PageId) (data : Page) (db : Bool)
    (hfid : fid < u.pool_size) (hnfree : fid ∉ u.free_list)
    (hp : p < u.disk.next_page_id)
    (hmiss : lookupPT u.page_table p = none) :
    Inv (install_frame fid p data db u) :=
  Inv_rebind hInv fid p data db hfid hnfree hp hmiss

theorem Inv_fetch_page (p : PageId) {s : BpmState} (hInv : Inv s) :
    Inv (fetch_page p s).2 := by
  unfold fetch_page
  cases hl : lookupPT s.page_table p with
  | some fid =>
      have hmem := lookupPT_mem hl
      obtain ⟨hfid, hpid, hnfree⟩ := hInv.ptConsistent _ hmem
      dsimp only
      apply Inv_touch hInv fid { s.frame fid with pin_count := (s.frame fid).pin_count + 1, is_referenced := true }
      · rfl
      · intro hmemf
        exact absurd hmemf hnfree
      · intro hz0
        rw [(hInv.nextZero hz0).1] at hmem
        cases hmem
  | none =>
      cases hv : find_victim_frame s with
      | mk r s1 =>
          cases r with
          | error e =>
              obtain ⟨hnil, hscan, _, hclock⟩ := find_victim_err hv
              have hhand := clockScan_handLt (2 * s.pool_size) s hInv.handLt
              rw [hclock] at hhand
              exact Inv_scanEq hInv hscan hhand
          | ok fid =>
              obtain ⟨hInv1, hfid, hpin, hnfree, hpt1, hdisk1, hpool1, hflen1,
                hfields⟩ := victim_post hInv hv
              have hInv2 := Inv_evict_prepare hInv1 fid hfid
              dsimp only
              cases hr : (evict_prepare fid s1).disk.read_page p with
              | error e => exact hInv2
              | ok data =>
                  apply Inv_install_frame hInv2 fid p data false
                  · rw [evict_prepare_pool]; exact hfid
                  · rw [evict_prepare_free]; exact hnfree
                  · have hlt := read_page_ok_lt hr
                    exact Nat.lt_of_lt_of_le hlt hInv2.lenLe
                  · rw [evict_prepare_pt, hpt1]; exact hl

theorem Inv_new_page {s : BpmState} (hInv : Inv s) : Inv (new_page s).2 := by
  unfold new_page
  cases hv : find_victim_frame s with
  | mk r s1 =>
      cases r with
      | error e =>
          obtain ⟨hnil, hscan, _, hclock⟩ := find_victim_err hv
          have hhand := clockScan_handLt (2 * s.pool_size) s hInv.handLt
          rw [hclock] at hhand
          exact Inv_scanEq hInv hscan hhand
      | ok fid =>
          obtain ⟨hInv1, hfid, hpin, hnfree, hpt1, hdisk1, hpool1, hflen1,
            hfields⟩ := victim_post hInv hv
          have hInv2 := Inv_evict_prepare hInv1 fid hfid
          have hInv3 : Inv { evict_prepare fid s1 with
              disk := ((evict_prepare fid s1).disk.allocate_page).2 } :=
            Inv_allocate hInv2
          dsimp only
          apply Inv_install_frame hInv3 fid _ zeroPage true
          · show fid < (evict_prepare fid s1).pool_size
            rw [evict_prepare_pool]; exact hfid
          · show fid ∉ (evict_prepare fid s1).free_list
            rw [evict_prepare_free]; exact hnfree
          · show (evict_prepare fid s1).disk.next_page_id <
              (evict_prepare fid s1).disk.next_page_id + 1
            exact Nat.lt_succ_self _
          · apply lookupPT_none_of_lt
            intro e he
            exact hInv2.ptKeysLt e he

theorem Inv_unpin_page (p : PageId) {s : BpmState} (hInv : Inv s) :
    Inv (unpin_page p s).2 := by
  unfold unpin_page
  cases hl : lookupPT s.page_table p with
  | some fid =>
      have hmem := lookupPT_mem hl
      obtain ⟨hfid, hpid, hnfree⟩ := hInv.ptConsistent _ hmem
      dsimp only
      split
      · apply Inv_touch hInv fid { s.frame fid with pin_count := (s.frame fid).pin_count - 1 }
        · rfl
        · intro hmemf
          exact absurd hmemf hnfree
        · intro hz0
          rw [(hInv.nextZero hz0).1] at hmem
          cases hmem
      · exact hInv
  | none => exact hInv

theorem Inv_unpin_logic (p : PageId) (data : Page) (db : Bool) {s : BpmState}
    (hInv : Inv s) : Inv (unpin_logic p data db s) := by
  unfold unpin_logic
  cases hl : lookupPT s.page_table p with
  | some fid =>
      have hmem := lookupPT_mem hl
      obtain ⟨hfid, hpid, hnfree⟩ := hInv.ptConsistent _ hmem
      dsimp only
      apply Inv_touch hInv fid
      · split <;> split <;> rfl
      · intro hmemf
        exact absurd hmemf hnfree
      · intro hz0
        rw [(hInv.nextZero hz0).1] at hmem
        cases hmem
  | none => exact hInv

theorem Inv_guard_write (fid : Nat) (data : Page) {s : BpmState}
    (hInv : Inv s) : Inv (guard_write fid data s) := by
  unfold guard_write
  split
  · next hpin =>
      apply Inv_touch hInv fid { s.frame fid with is_dirty := true, data := data }
      · rfl
      · intro hmemf
        have := (hInv.freeWF fid hmemf).2.2.1
        omega
      · intro hz0
        have hflt : fid < s.pool_size := by
          by_contra hc
          have hge : s.frames.length ≤ fid := by
            rw [hInv.framesLen]; omega
          have hdef : s.frame fid = default := by
            simp [BpmState.frame, List.getD, List.getElem?_eq_none hge]
          rw [hdef] at hpin
          simp [default] at hpin
        have := ((hInv.nextZero hz0).2 fid hflt).1
        omega
  · exact hInv

theorem Inv_flush_page (p : PageId) {s : BpmState} (hInv : Inv s) :
    Inv (flush_page p s).2 := by
  unfold flush_page
  cases hl : lookupPT s.page_table p with
  | some fid =>
      have hmem := lookupPT_mem hl
      obtain ⟨hfid, hpid, hnfree⟩ := hInv.ptConsistent _ hmem
      dsimp only
      split
      · have hplt := hInv.ptKeysLt _ hmem
        have hInvW : Inv { s with disk := s.disk.write_page p (s.frame fid).data } :=
          Inv_write_page hInv p (s.frame fid).data
            (fun _ => Nat.lt_of_le_of_lt (Nat.zero_le p) hplt) (Or.inr hplt)
        apply Inv_touch hInvW fid { s.frame fid with is_dirty := false }
        · rfl
        · intro hmemf
          exact absurd hmemf hnfree
        · intro hz0
          rw [(hInvW.nextZero hz0).1] at hmem
          cases hmem
      · exact hInv
  | none => exact hInv

theorem Inv_flush_all_go (entries : List (PageId × Nat)) {s : BpmState}
    (hInv : Inv s) : Inv (flush_all_go entries s).2 := by
  induction entries generalizing s with
  | nil => exact hInv
  | cons e rest ih =>
      unfold flush_all_go
      cases hf : flush_page e.1 s with
      | mk r s1 =>
          have hInv1 : Inv s1 := by
            have := Inv_flush_page e.1 hInv
            rw [hf] at this
            exact this
          cases r with
          | ok u => exact ih hInv1
          | error err => exact hInv1

theorem Inv_flush_all {s : BpmState} (hInv : Inv s) :
    Inv (flush_all_pages s).2 :=
  Inv_flush_all_go s.page_table hInv

theorem Inv_init (pool_size lenPages : Nat) (content : PageId → Page) :
    Inv (init pool_size (DiskManager.new lenPages content)) := by
  have hframe : ∀ f, (init pool_size (DiskManager.new lenPages content)).frame f =
      if f < pool_size then
        { page_id := 0, data := zeroPage, pin_count := 0, is_dirty := false,
          is_referenced := false }
      else default := by
    intro f
    show (List.replicate pool_size _).getD f default = _
    by_cases hf : f < pool_size
    · rw [if_pos hf]
      simp [List.getD, List.getElem?_replicate, hf]
    · rw [if_neg hf]
      simp [List.getD, List.getElem?_replicate, hf]
  refine ⟨by simp [init], ?_, by simp [init], ?_, ?_, ?_, by simp [init],
    le_refl _, ?_, ?_, ?_⟩
  · intro e he
    simp [init] at he
  · intro f hf
    simp only [init, List.mem_reverse, List.mem_range] at hf
    rw [hframe, if_pos hf]
    exact ⟨hf, rfl, rfl, rfl⟩
  · show ((List.range pool_size).reverse).Nodup
    simp [List.nodup_range]
  · intro f hf hfr hpid
    exact absurd (by simpa [init] using hf : f < pool_size)
      (by intro hc; exact hfr (by simp [init, List.mem_reverse, List.mem_range]; exact hc))
  · intro f hf
    rw [hframe]
    split <;> exact Or.inl rfl
  · intro _
    refine ⟨rfl, fun f hf => ?_⟩
    rw [hframe]
    split <;> exact ⟨rfl, rfl⟩
  · by_cases hp : pool_size = 0
    · exact Or.inl hp
    · exact Or.inr (by show 0 < pool_size; omega)

/-- The invariant holds in every reachable buffer-pool state. -/
theorem Inv_reach {s : BpmState} (h : Reach s) : Inv s := by
  induction h with
  | init pool_size lenPages content => exact Inv_init pool_size lenPages content
  | fetch p _ ih => exact Inv_fetch_page p ih
  | newp _ ih => exact Inv_new_page ih
  | unpin p _ ih => exact Inv_unpin_page p ih
  | unpinA p data d _ ih => exact Inv_unpin_logic p data d ih
  | gwrite fid data _ ih => exact Inv_guard_write fid data ih
  | flush p _ ih => exact Inv_flush_page p ih
  | flushAll _ ih => exact Inv_flush_all ih

theorem lookupPT_of_mem_nodup {pt : List (PageId × Nat)} {p : PageId} {f : Nat}
    (hnd : (pt.map Prod.fst).Nodup) (hmem : (p, f) ∈ pt) :
    lookupPT pt p = some f := by
  induction pt with
  | nil => cases hmem
  | cons e rest ih =>
      simp only [List.map_cons, List.nodup_cons] at hnd
      rcases List.mem_cons.mp hmem with rfl | hmem'
      · unfold lookupPT
        simp [List.find?_cons_of_pos]
      · have hne : e.1 ≠ p := by
          intro hc
          exact hnd.1 (List.mem_map.mpr ⟨(p, f), hmem', hc.symm⟩)
        unfold lookupPT
        rw [List.find?_cons_of_neg _ (by simpa using hne)]
        exact ih hnd.2 hmem'

theorem find_victim_pin {s : BpmState} (hInv : Inv s) {fid : Nat}
    {s1 : BpmState} (hv : find_victim_frame s = (.ok fid, s1)) :
    (s.frame fid).pin_count = 0 := by
  obtain ⟨_, _, hpin, _, _, _, _, _, hfields⟩ := victim_post hInv hv
  rw [← (hfields fid).2.1]
  exact hpin

end BpmState

/-! ## Claim theorems about the buffer pool managers -/

open BpmState in
/-- C3 (amended).  In every buffer-pool state reachable by any sequence of
operations (either BPM variant), the forward direction of the residency
law always holds: `page_table[p] = f` implies `frame[f].page_id = p` and
`f` is not on the free list.  The reverse direction holds for every
`p ≠ INVALID_PAGE_ID` (`0`): an occupied frame holding a page other than
page 0 is always mapped.  (The reverse direction fails for `p = 0`
because free-list frames carry the dummy `page_id` 0 — see the
counterexample.) -/
theorem bpm_residency_consistency {s : BpmState} (h : Reach s) (p : PageId)
    (f : Nat) :
    (lookupPT s.page_table p = some f →
      (s.frame f).page_id = p ∧ f ∉ s.free_list) ∧
    (p ≠ INVALID_PAGE_ID → f < s.pool_size → (s.frame f).page_id = p →
      f ∉ s.free_list → lookupPT s.page_table p = some f) := by
  have hInv := Inv_reach h
  constructor
  · intro hl
    have hmem := lookupPT_mem hl
    obtain ⟨_, hpid, hnfree⟩ := hInv.ptConsistent _ hmem
    exact ⟨hpid, hnfree⟩
  · intro hp hf hpid hnfree
    have hmem := hInv.occMapped f hf hnfree (by rw [hpid]; exact hp)
    rw [hpid] at hmem
    exact lookupPT_of_mem_nodup hInv.ptKeysNodup hmem

open BpmState in
/-- Witness for C3: after one `new_page` on a pool of two frames over a
one-page file (so the first allocated page id is 1, not 0), the fresh
page is resident in frame 1 and both directions of the law hold there. -/
theorem bpm_residency_consistency_witness :
    ((BpmState.new_page (BpmState.init 2 (DiskManager.new 1 (fun _ => zeroPage)))).2.frame
        1).page_id = 1 ∧
    1 ∉ (BpmState.new_page (BpmState.init 2 (DiskManager.new 1 (fun _ => zeroPage)))).2.free_list := by
  have h := (bpm_residency_consistency
    (Reach.newp (Reach.init 2 1 (fun _ => zeroPage))) 1 1).1 (by decide)
  exact h

open BpmState in
/-- Counterexample for C3 as stated: on a freshly created (empty) file,
the first `new_page` hands out page id 0; the second `new_page` pops a
free frame whose dummy `page_id` is also 0, and its
`page_table.remove(&old_page_id)` removes page 0's live entry.  In the
resulting reachable state, frame 1 holds page 0 and is not free, yet the
page table has no entry for page 0 — the biconditional fails. -/
theorem bpm_residency_consistency_cex :
    BpmState.Reach (BpmState.new_page (BpmState.new_page
      (BpmState.init 2 (DiskManager.new 0 (fun _ => zeroPage)))).2).2 ∧
    ¬(∀ (p : PageId) (f : Nat),
      BpmState.lookupPT (BpmState.new_page (BpmState.new_page
        (BpmState.init 2 (DiskManager.new 0 (fun _ => zeroPage)))).2).2.page_table p
          = some f ↔
      (((BpmState.new_page (BpmState.new_page
        (BpmState.init 2 (DiskManager.new 0 (fun _ => zeroPage)))).2).2.frame f).page_id = p ∧
        f ∉ (BpmState.new_page (BpmState.new_page
          (BpmState.init 2 (DiskManager.new 0 (fun _ => zeroPage)))).2).2.free_list)) := by
  constructor
  · exact Reach.newp (Reach.newp (Reach.init 2 0 (fun _ => zeroPage)))
  · intro hall
    have h := (hall 0 1).mpr ⟨by decide, by decide⟩
    exact absurd h (by decide)

open BpmState in
/-- C4.  In every reachable buffer-pool state (either BPM variant), a
frame with a positive pin count is never selected as the eviction
victim: `find_victim_frame` — the sole victim-selection routine used by
both `fetch_page` and `new_page` — never returns it. -/
theorem bpm_pin_safety {s : BpmState} (h : Reach s) (f : Nat)
    (hpin : 0 < (s.frame f).pin_count) :
    (BpmState.find_victim_frame s).1 ≠ .ok f := by
  intro hc
  have hInv := Inv_reach h
  cases hv : BpmState.find_victim_frame s with
  | mk r s1 =>
      rw [hv] at hc
      cases r with
      | error e => cases hc
      | ok fid =>
          cases hc
          have := find_victim_pin hInv hv
          omega

open BpmState in
/-- Witness for C4: in the pool-of-two state reached by one `new_page`
(frame 1 pinned with the new page), the victim search does not pick
frame 1. -/
theorem bpm_pin_safety_witness :
    (BpmState.find_victim_frame
      (BpmState.new_page (BpmState.init 2 (DiskManager.new 0 (fun _ => zeroPage)))).2).1
      ≠ .ok 1 :=
  bpm_pin_safety (Reach.newp (Reach.init 2 0 (fun _ => zeroPage))) 1 (by decide)

open BpmState in
/-- C5.  Victim selection in both BPM variants: (i) if the free list is
non-empty, the frame popped from it is returned and the state change is
exactly that pop; (ii) with an empty free list and a non-empty pool, the
`2 * pool_size`-step clock scan succeeds — returning an unpinned frame —
exactly when some frame is unpinned, and (iii) when every frame is
pinned, the scan fails with `NoFreeFrames` and leaves the state
unchanged (the hand comes full circle). -/
theorem bpm_victim_selection {s : BpmState} (h : Reach s) :
    (∀ fid rest, s.free_list = fid :: rest →
      BpmState.find_victim_frame s = (.ok fid, { s with free_list := rest })) ∧
    (s.free_list = [] → 0 < s.pool_size →
      ((∃ f, f < s.pool_size ∧ (s.frame f).pin_count = 0) →
        ∃ fid s1, BpmState.find_victim_frame s = (.ok fid, s1) ∧
          fid < s.pool_size ∧ (s.frame fid).pin_count = 0) ∧
      ((∀ f, f < s.pool_size → 0 < (s.frame f).pin_count) →
        BpmState.find_victim_frame s = (.error .noFreeFrames, s))) := by
  have hInv := Inv_reach h
  constructor
  · intro fid rest hfl
    unfold BpmState.find_victim_frame
    rw [hfl]
  · intro hfl hpos
    have hhand : s.clock_hand < s.pool_size := by
      rcases hInv.handLt with h0 | h0
      · omega
      · exact h0
    have hfv : BpmState.find_victim_frame s = clockScan (2 * s.pool_size) s := by
      unfold BpmState.find_victim_frame
      rw [hfl]
    constructor
    · rintro ⟨u, hu, hupin⟩
      have hd : s.pool_size + clockDist s.clock_hand u s.pool_size <
          2 * s.pool_size := by
        have := clockDist_lt hu hhand
        omega
      obtain ⟨fid, s1, hscan⟩ :=
        clockScan_hits (2 * s.pool_size) s u hInv.framesLen hu hhand hupin hd
      refine ⟨fid, s1, by rw [hfv]; exact hscan,
        clockScan_ok_lt hscan hhand, clockScan_ok_pin hscan⟩
    · intro hall
      have hall' : ∀ f, f < s.pool_size → (s.frame f).pin_count ≠ 0 := by
        intro f hf
        have := hall f hf
        omega
      have hs := clockScan_all_pinned (2 * s.pool_size) s hall' hhand
      rw [hfv, hs]
      have harith : (s.clock_hand + 2 * s.pool_size) % s.pool_size =
          s.clock_hand := by
        rw [Nat.add_mul_mod_self_right]
        exact Nat.mod_eq_of_lt hhand
      rw [harith]

open BpmState in
/-- Witness for C5: on a freshly initialized pool of one frame the free
list is `[0]`, and the victim search pops frame 0. -/
theorem bpm_victim_selection_witness :
    BpmState.find_victim_frame
        (BpmState.init 1 (DiskManager.new 0 (fun _ => zeroPage))) =
      (.ok 0, { BpmState.init 1 (DiskManager.new 0 (fun _ => zeroPage)) with
        free_list := [] }) :=
  (bpm_victim_selection (Reach.init 1 0 (fun _ => zeroPage))).1 0 [] (by decide)

open BpmState in
/-- C9.  When the actor processes `Unpin { page_id, data, is_dirty }` for
a resident page: with `is_dirty = true` it overwrites the frame's bytes
with the guard's copy and marks the frame dirty; with
`is_dirty = false` the frame's bytes and dirty flag are untouched and
only the pin count decreases (saturating at zero; `page_id` and the
reference bit are untouched in both cases, as are all other frames, the
page table, the free list and the disk). -/
theorem actor_unpin_effect {s : BpmState} (h : Reach s) {p : PageId}
    {fid : Nat} (hres : BpmState.lookupPT s.page_table p = some fid)
    (data : Page) :
    (((BpmState.unpin_logic p data true s).frame fid).data = data ∧
      ((BpmState.unpin_logic p data true s).frame fid).is_dirty = true ∧
      ((BpmState.unpin_logic p data true s).frame fid).pin_count =
        (s.frame fid).pin_count - 1 ∧
      ((BpmState.unpin_logic p data true s).frame fid).page_id =
        (s.frame fid).page_id) ∧
    (((BpmState.unpin_logic p data false s).frame fid).data =
        (s.frame fid).data ∧
      ((BpmState.unpin_logic p data false s).frame fid).is_dirty =
        (s.frame fid).is_dirty ∧
      ((BpmState.unpin_logic p data false s).frame fid).pin_count =
        (s.frame fid).pin_count - 1 ∧
      ((BpmState.unpin_logic p data false s).frame fid).page_id =
        (s.frame fid).page_id) ∧
    (∀ (b : Bool) (g : Nat), g ≠ fid →
      (BpmState.unpin_logic p data b s).frame g = s.frame g) ∧
    (∀ b : Bool, (BpmState.unpin_logic p data b s).page_table = s.page_table ∧
      (BpmState.unpin_logic p data b s).free_list = s.free_list ∧
      (BpmState.unpin_logic p data b s).disk = s.disk) := by
  have hInv := Inv_reach h
  have hmem := lookupPT_mem hres
  have hfid : fid < s.frames.length := by
    rw [hInv.framesLen]
    exact (hInv.ptConsistent _ hmem).1
  have hset : ∀ (b : Bool) (g : Nat), (BpmState.unpin_logic p data b s).frame g =
      if g = fid ∧ fid < s.frames.length then
        (if b then
          { (if (s.frame fid).pin_count > 0 then
              { s.frame fid with pin_count := (s.frame fid).pin_count - 1 }
            else s.frame fid) with is_dirty := true, data := data }
         else
          (if (s.frame fid).pin_count > 0 then
            { s.frame fid with pin_count := (s.frame fid).pin_count - 1 }
          else s.frame fid))
      else s.frame g := by
    intro b g
    unfold BpmState.unpin_logic
    rw [hres]
    dsimp only
    cases b with
    | true => exact frame_setFrame s fid _ g
    | false => exact frame_setFrame s fid _ g
  have hstate : ∀ b : Bool, (BpmState.unpin_logic p data b s).page_table = s.page_table ∧
      (BpmState.unpin_logic p data b s).free_list = s.free_list ∧
      (BpmState.unpin_logic p data b s).disk = s.disk := by
    intro b
    unfold BpmState.unpin_logic
    rw [hres]
    exact ⟨rfl, rfl, rfl⟩
  refine ⟨?_, ?_, ?_, hstate⟩
  · rw [hset true fid, if_pos ⟨rfl, hfid⟩]
    by_cases hpin : (s.frame fid).pin_count > 0
    · rw [if_pos hpin]
      exact ⟨rfl, rfl, rfl, rfl⟩
    · rw [if_neg hpin]
      refine ⟨rfl, rfl, ?_, rfl⟩
      show (s.frame fid).pin_count = (s.frame fid).pin_count - 1
      omega
  · rw [hset false fid, if_pos ⟨rfl, hfid⟩]
    by_cases hpin : (s.frame fid).pin_count > 0
    · rw [if_pos hpin]
      exact ⟨rfl, rfl, rfl, rfl⟩
    · rw [if_neg hpin]
      refine ⟨rfl, rfl, ?_, rfl⟩
      show (s.frame fid).pin_count = (s.frame fid).pin_count - 1
      omega
  · intro b g hg
    rw [hset b g, if_neg (fun hc => hg hc.1)]

open BpmState in
/-- Witness for C9: in the pool reached by one `new_page` (page 0
resident in frame 1), an `Unpin` with `dirty = true` installs the
guard's bytes and dirty flag. -/
theorem actor_unpin_effect_witness :
    ((BpmState.unpin_logic 0 (fun _ => 171)
        true (BpmState.new_page (BpmState.init 2 (DiskManager.new 0 (fun _ => zeroPage)))).2).frame
        1).data = (fun _ => 171) ∧
    ((BpmState.unpin_logic 0 (fun _ => 171)
        true (BpmState.new_page (BpmState.init 2 (DiskManager.new 0 (fun _ => zeroPage)))).2).frame
        1).is_dirty = true :=
  have h := @actor_unpin_effect _
    (Reach.newp (Reach.init 2 0 (fun _ => zeroPage)))
    0 1 (by decide) (fun _ => 171)
  ⟨h.1.1, h.1.2.1⟩

/-- C10.  On a database file of length zero, `DiskManager::new`
initializes the allocator to `0 / PAGE_SIZE = 0`, so the first
`allocate_page()` returns page id 0 — the very value of
`INVALID_PAGE_ID`, the sentinel that elsewhere marks the absence of a
link (heap `next_page_id`, leaf `next`/`prev`, parent pointers) — and
`new_page()` consequently hands out a real, pinned page whose id equals
`INVALID_PAGE_ID`. -/
theorem first_page_id_collides_with_invalid :
    ((DiskManager.new 0 (fun _ => zeroPage)).allocate_page).1 = 0 ∧
    INVALID_PAGE_ID = 0 ∧
    (BpmState.new_page
        (BpmState.init 2 (DiskManager.new 0 (fun _ => zeroPage)))).1 =
      .ok (INVALID_PAGE_ID, zeroPage) ∧
    ((BpmState.new_page
        (BpmState.init 2 (DiskManager.new 0 (fun _ => zeroPage)))).2.frame
          1).page_id = INVALID_PAGE_ID :=
  ⟨rfl, rfl, rfl, rfl⟩

/-! ## Slotted page (`src/page.rs`)

`PageHeader` is `repr(C)` with `PageId = usize` on a 64-bit little-endian
target: `page_id` at bytes 0-7, `page_type` at 8, padding at 9,
`free_space_pointer : u16` at 10-11, `slot_count : u16` at 12-13, padding
at 14-15, `next_page_id` at 16-23; `size_of::<PageHeader>() = 24`.
`Slot` is `{ offset : u16, length : u16 }`, size 4.  Header and slot
access go through raw pointer casts, so an out-of-range slot position is
undefined behaviour in the source; the model performs the plain
read/write (the theorems only ever use in-bounds positions).  `u16`
arithmetic wraps (the release-profile semantics of the source's
unchecked `-`, `+` and `*`). -/

theorem fromLe_lt (bs : List Nat) : fromLe bs < 256 ^ bs.length := by
  induction bs with
  | nil => simp [fromLe]
  | cons b rest ih =>
      simp only [fromLe, List.length_cons, pow_succ]
      have hb : b % 256 < 256 := Nat.mod_lt _ (by omega)
      calc b % 256 + 256 * fromLe rest
          ≤ 255 + 256 * (256 ^ rest.length - 1) := by
            have := ih
            omega
        _ < 256 ^ rest.length * 256 := by
            have hpos : 0 < 256 ^ rest.length := Nat.pos_pow_of_pos _ (by omega)
            omega

theorem readBytes_length (pg : Page) (off n : Nat) :
    (readBytes pg off n).length = n := by
  simp [readBytes]

theorem readLe_lt (pg : Page) (off w : Nat) : readLe pg off w < 256 ^ w := by
  have := fromLe_lt (readBytes pg off w)
  rwa [readBytes_length] at this

theorem readLe_writeLe_same (pg : Page) (off w v : Nat) :
    readLe (writeLe pg off w v) off w = v % 256 ^ w := by
  unfold readLe writeLe
  have h := readBytes_writeBytes_same pg off (toLe w v)
  rw [toLe_length] at h
  rw [h, fromLe_toLe]

theorem readLe_writeBytes_disjoint (pg : Page) (o1 : Nat) (bs : List Nat)
    (o2 w : Nat) (h : o2 + w ≤ o1 ∨ o1 + bs.length ≤ o2) :
    readLe (writeBytes pg o1 bs) o2 w = readLe pg o2 w := by
  unfold readLe
  rw [readBytes_writeBytes_disjoint pg o1 bs o2 w h]

theorem readLe_writeLe_disjoint (pg : Page) (o1 w1 v : Nat) (o2 w2 : Nat)
    (h : o2 + w2 ≤ o1 ∨ o1 + w1 ≤ o2) :
    readLe (writeLe pg o1 w1 v) o2 w2 = readLe pg o2 w2 := by
  unfold writeLe
  apply readLe_writeBytes_disjoint
  rw [toLe_length]
  exact h

theorem readBytes_writeLe_disjoint (pg : Page) (o1 w1 v : Nat) (o2 n : Nat)
    (h : o2 + n ≤ o1 ∨ o1 + w1 ≤ o2) :
    readBytes (writeLe pg o1 w1 v) o2 n = readBytes pg o2 n := by
  unfold writeLe
  apply readBytes_writeBytes_disjoint
  rw [toLe_length]
  exact h

namespace SlottedPage

/-- `std::mem::size_of::<PageHeader>()` on the 64-bit target. -/
def HEADER_SIZE : Nat := 24

/-- `std::mem::size_of::<Slot>()`. -/
def SLOT_SIZE : Nat := 4

/-- Reduction modulo `2^16`: the value of a `u16` expression. -/
def m16 (x : Nat) : Nat := x % 65536

/-- Wrapping `u16` subtraction `a - b` for `a < 2^16`. -/
def sub16 (a b : Nat) : Nat := (a + 65536 - m16 b) % 65536

/-- `header().free_space_pointer` (bytes 10-11, native = little endian). -/
def free_space_pointer (pg : Page) : Nat := readLe pg 10 2

/-- `header().slot_count` (bytes 12-13). -/
def slot_count (pg : Page) : Nat := readLe pg 12 2

/-- `header_size + slot_index * size_of::<Slot>()` computed in `u16`
(`slot` / `slot_mut`, lines 65-76). -/
def slot_pos (idx : Nat) : Nat := m16 (HEADER_SIZE + m16 (idx * SLOT_SIZE))

/-- `allocate_slot` (lines 86-109): compute
`free_space_pointer - (header_size + (slot_count + 1) * slot_size)` in
`u16`, reject if smaller than the record length, otherwise reserve the
next slot (offset = new free-space pointer, length = record length),
bump `slot_count` and lower `free_space_pointer`. -/
def allocate_slot (pg : Page) (record_len : Nat) : Option (Nat × Page) :=
  let fsp := free_space_pointer pg
  let count := slot_count pg
  let free_space := sub16 fsp (m16 (HEADER_SIZE + m16 (m16 (count + 1) * SLOT_SIZE)))
  if free_space < record_len then none
  else
    let slot_index := count
    let new_fsp := sub16 fsp record_len
    let pg := writeLe pg (slot_pos slot_index) 2 new_fsp
    let pg := writeLe pg (slot_pos slot_index + 2) 2 record_len
    let pg := writeLe pg 12 2 (m16 (slot_count pg + 1))
    let pg := writeLe pg 10 2 new_fsp
    some (slot_index, pg)

/-- `insert_record` (lines 113-123): `record.len() as u16` (truncating),
`allocate_slot`, then `data[offset..offset+record_len]
.copy_from_slice(record)` — which panics when the slice leaves the page
or when the truncated length differs from the record's length. -/
def insert_record (pg : Page) (record : List Nat) :
    Except Err (Option (Nat × Page)) :=
  let record_len := m16 record.length
  match allocate_slot pg record_len with
  | none => .ok none
  | some (slot_index, pg) =>
      let offset := readLe pg (slot_pos slot_index) 2
      if offset + record_len ≤ PAGE_SIZE then
        if record.length = record_len then
          .ok (some (slot_index, writeBytes pg offset record))
        else .error (.panicked "copy_from_slice: length mismatch")
      else .error (.panicked "slice index out of range")

/-- `get_record` (lines 79-82):
`&data[slot.offset .. slot.offset + slot.length]`, the end bound
computed in `u16`; panics when the range is invalid or leaves the
page. -/
def get_record (pg : Page) (slot_index : Nat) : Except Err (List Nat) :=
  let offset := readLe pg (slot_pos slot_index) 2
  let len := readLe pg (slot_pos slot_index + 2) 2
  let endo := m16 (offset + len)
  if offset ≤ endo ∧ endo ≤ PAGE_SIZE then
    .ok (readBytes pg offset (endo - offset))
  else .error (.panicked "slice index out of range")

theorem sub16_of_le {a b : Nat} (hb : b ≤ a) (ha : a < 65536) :
    sub16 a b = a - b := by
  unfold sub16 m16
  rw [@Nat.mod_eq_of_lt b 65536 (by omega)]
  have h1 : a + 65536 - b = (a - b) + 65536 := by omega
  rw [h1, Nat.add_mod_right, Nat.mod_eq_of_lt (by omega)]

theorem m16_of_lt {a : Nat} (h : a < 65536) : m16 a = a :=
  Nat.mod_eq_of_lt h

/-- Closed form of `allocate_slot` when the header is well-formed enough
for the `u16` arithmetic not to wrap. -/
theorem allocate_slot_spec (pg : Page) (len : Nat)
    (h1 : HEADER_SIZE + (slot_count pg + 1) * SLOT_SIZE ≤ free_space_pointer pg)
    (h2 : free_space_pointer pg ≤ PAGE_SIZE) :
    allocate_slot pg len =
      if free_space_pointer pg -
          (HEADER_SIZE + (slot_count pg + 1) * SLOT_SIZE) < len then none
      else some (slot_count pg,
        writeLe (writeLe (writeLe (writeLe pg
          (HEADER_SIZE + slot_count pg * SLOT_SIZE) 2
            (free_space_pointer pg - len))
          (HEADER_SIZE + slot_count pg * SLOT_SIZE + 2) 2 len)
          12 2 (slot_count pg + 1))
          10 2 (free_space_pointer pg - len)) := by
  have hfsp : free_space_pointer pg < 65536 := readLe_lt pg 10 2
  have hcnt : slot_count pg < 65536 := readLe_lt pg 12 2
  simp only [HEADER_SIZE, SLOT_SIZE, PAGE_SIZE] at h1 h2 ⊢
  have hc : slot_count pg ≤ 1017 := by omega
  have e1 : m16 (slot_count pg + 1) = slot_count pg + 1 :=
    m16_of_lt (by omega)
  have e2 : m16 ((slot_count pg + 1) * 4) = (slot_count pg + 1) * 4 :=
    m16_of_lt (by omega)
  have e3 : m16 (24 + (slot_count pg + 1) * 4) = 24 + (slot_count pg + 1) * 4 :=
    m16_of_lt (by omega)
  have epos : slot_pos (slot_count pg) = 24 + slot_count pg * 4 := by
    unfold slot_pos
    simp only [HEADER_SIZE, SLOT_SIZE]
    rw [@m16_of_lt (slot_count pg * 4) (by omega),
      m16_of_lt (by omega)]
  have hfree : sub16 (free_space_pointer pg)
      (m16 (24 + m16 (m16 (slot_count pg + 1) * 4))) =
      free_space_pointer pg - (24 + (slot_count pg + 1) * 4) := by
    rw [e1, e2, e3, sub16_of_le (by omega) hfsp]
  unfold allocate_slot
  simp only [HEADER_SIZE, SLOT_SIZE]
  rw [hfree]
  split
  · rfl
  · next hge =>
      have hlen : len ≤ free_space_pointer pg := by omega
      have ecnt : slot_count (writeLe (writeLe pg
          (slot_pos (slot_count pg)) 2 (sub16 (free_space_pointer pg) len))
          (slot_pos (slot_count pg) + 2) 2 len) = slot_count pg := by
        show readLe (writeLe (writeLe pg
          (slot_pos (slot_count pg)) 2 (sub16 (free_space_pointer pg) len))
          (slot_pos (slot_count pg) + 2) 2 len) 12 2 = readLe pg 12 2
        rw [readLe_writeLe_disjoint _ _ _ _ _ _ (by rw [epos]; omega),
          readLe_writeLe_disjoint _ _ _ _ _ _ (by rw [epos]; omega)]
      rw [ecnt, e1, epos, sub16_of_le hlen hfsp]

end SlottedPage

open SlottedPage in
/-- C7 (amended).  For a slotted page whose header satisfies the
strengthened bound
`header_size + (slot_count + 1) * slot_size ≤ free_space_pointer ≤ page_size`
(the claim's weaker bound `header_size + slot_count * slot_size ≤ fsp`
is not enough: in the gap the `u16` free-space subtraction wraps around
and the insert is wrongly accepted — see the counterexample) and a
record shorter than `2^16` bytes: `insert_record` returns `None` exactly
when `free_space_pointer - (header_size + (slot_count + 1) * slot_size)`
is less than the record length, and otherwise returns the fresh slot
index `slot_count` from which `get_record` yields the inserted bytes. -/
theorem slotted_page_insert_record (pg : Page) (record : List Nat)
    (h1 : HEADER_SIZE + (slot_count pg + 1) * SLOT_SIZE ≤ free_space_pointer pg)
    (h2 : free_space_pointer pg ≤ PAGE_SIZE)
    (h3 : record.length < 65536) :
    (free_space_pointer pg - (HEADER_SIZE + (slot_count pg + 1) * SLOT_SIZE)
        < record.length →
      insert_record pg record = .ok none) ∧
    (record.length ≤
        free_space_pointer pg - (HEADER_SIZE + (slot_count pg + 1) * SLOT_SIZE) →
      ∃ pg2, insert_record pg record = .ok (some (slot_count pg, pg2)) ∧
        get_record pg2 (slot_count pg) = .ok record) := by
  have hfsp : free_space_pointer pg < 65536 := readLe_lt pg 10 2
  have hcnt : slot_count pg < 65536 := readLe_lt pg 12 2
  have hmrec : m16 record.length = record.length := m16_of_lt h3
  have hspec := allocate_slot_spec pg record.length h1 h2
  simp only [HEADER_SIZE, SLOT_SIZE, PAGE_SIZE] at h1 h2 hspec ⊢
  have hc : slot_count pg ≤ 1017 := by omega
  have epos : slot_pos (slot_count pg) = 24 + slot_count pg * 4 := by
    unfold slot_pos
    simp only [HEADER_SIZE, SLOT_SIZE]
    rw [@m16_of_lt (slot_count pg * 4) (by omega), m16_of_lt (by omega)]
  constructor
  · intro hlt
    unfold insert_record
    rw [hmrec]
    dsimp only
    rw [hspec, if_pos hlt]
  · intro hge
    have hnlt : ¬(free_space_pointer pg - (24 + (slot_count pg + 1) * 4)
        < record.length) := by omega
    have hlenfsp : record.length ≤ free_space_pointer pg := by omega
    unfold insert_record
    rw [hmrec]
    dsimp only
    rw [hspec, if_neg hnlt]
    dsimp only
    have hoff : readLe (writeLe (writeLe (writeLe (writeLe pg
        (24 + slot_count pg * 4) 2 (free_space_pointer pg - record.length))
        (24 + slot_count pg * 4 + 2) 2 record.length)
        12 2 (slot_count pg + 1))
        10 2 (free_space_pointer pg - record.length))
        (slot_pos (slot_count pg)) 2 = free_space_pointer pg - record.length := by
      rw [epos]
      rw [readLe_writeLe_disjoint _ _ _ _ _ _ (by omega)]
      rw [readLe_writeLe_disjoint _ _ _ _ _ _ (by omega)]
      rw [readLe_writeLe_disjoint _ _ _ _ _ _ (by omega)]
      rw [readLe_writeLe_same]
      exact Nat.mod_eq_of_lt (by omega)
    rw [hoff]
    rw [if_pos (by simp only [PAGE_SIZE]; omega)]
    rw [if_pos rfl]
    refine ⟨_, rfl, ?_⟩
    unfold get_record
    dsimp only
    have hoff2 : readLe (writeBytes (writeLe (writeLe (writeLe (writeLe pg
        (24 + slot_count pg * 4) 2 (free_space_pointer pg - record.length))
        (24 + slot_count pg * 4 + 2) 2 record.length)
        12 2 (slot_count pg + 1))
        10 2 (free_space_pointer pg - record.length))
        (free_space_pointer pg - record.length) record)
        (slot_pos (slot_count pg)) 2 = free_space_pointer pg - record.length := by
      rw [readLe_writeBytes_disjoint _ _ _ _ _ (by rw [epos]; omega)]
      exact hoff
    have hlen2 : readLe (writeBytes (writeLe (writeLe (writeLe (writeLe pg
        (24 + slot_count pg * 4) 2 (free_space_pointer pg - record.length))
        (24 + slot_count pg * 4 + 2) 2 record.length)
        12 2 (slot_count pg + 1))
        10 2 (free_space_pointer pg - record.length))
        (free_space_pointer pg - record.length) record)
        (slot_pos (slot_count pg) + 2) 2 = record.length := by
      rw [readLe_writeBytes_disjoint _ _ _ _ _ (by rw [epos]; omega)]
      rw [epos]
      rw [readLe_writeLe_disjoint _ _ _ _ _ _ (by omega)]
      rw [readLe_writeLe_disjoint _ _ _ _ _ _ (by omega)]
      rw [readLe_writeLe_same]
      exact Nat.mod_eq_of_lt (by omega)
    rw [hoff2, hlen2]
    have hendo : m16 (free_space_pointer pg - record.length + record.length) =
        free_space_pointer pg := by
      have he : free_space_pointer pg - record.length + record.length =
          free_space_pointer pg := by omega
      rw [he]
      exact m16_of_lt hfsp
    rw [hendo]
    rw [if_pos ⟨by omega, by simp only [PAGE_SIZE]; omega⟩]
    have hn : free_space_pointer pg - (free_space_pointer pg - record.length) =
        record.length := by omega
    rw [hn]
    have hread := readBytes_writeBytes_same (writeLe (writeLe (writeLe (writeLe pg
        (24 + slot_count pg * 4) 2 (free_space_pointer pg - record.length))
        (24 + slot_count pg * 4 + 2) 2 record.length)
        12 2 (slot_count pg + 1))
        10 2 (free_space_pointer pg - record.length))
        (free_space_pointer pg - record.length) record
    rw [hread]

open SlottedPage in
/-- Witness for C7: an empty page with `free_space_pointer = 4096`
(page size) accepts a 3-byte record into slot 0 and reads it back. -/
theorem slotted_page_insert_record_witness :
    ∃ pg2, insert_record (writeLe zeroPage 10 2 4096) [7, 8, 9] =
        .ok (some (0, pg2)) ∧
      get_record pg2 0 = .ok [7, 8, 9] := by
  have h := (slotted_page_insert_record (writeLe zeroPage 10 2 4096) [7, 8, 9]
    (by decide) (by decide) (by decide)).2 (by decide)
  have hc : slot_count (writeLe zeroPage 10 2 4096) = 0 := by decide
  rw [hc] at h
  exact h

open SlottedPage in
/-- Projection of an `insert_record` result onto the returned slot
index, used to state the counterexample without comparing page
functions. -/
def insertResultIndex (r : Except Err (Option (Nat × Page))) :
    Option (Option Nat) :=
  match r with
  | .ok none => some none
  | .ok (some (i, _)) => some (some i)
  | .error _ => none

open SlottedPage in
/-- Counterexample for C7 as stated.  The page with
`free_space_pointer = 24` and `slot_count = 0` satisfies the claim's
hypothesis `header_size + slot_count * slot_size ≤ fsp ≤ page_size`
(`24 + 0 ≤ 24 ≤ 4096`), and the claimed free space
`24 - (24 + 1 * 4)` is negative, so the claim demands `None` for a
1-byte record.  The code's `u16` subtraction wraps to `65532` instead
(in a release build; a debug build panics), and `insert_record` returns
slot 0. -/
theorem slotted_page_insert_record_cex :
    HEADER_SIZE + slot_count (writeLe zeroPage 10 2 24) * SLOT_SIZE ≤
        free_space_pointer (writeLe zeroPage 10 2 24) ∧
    free_space_pointer (writeLe zeroPage 10 2 24) ≤ PAGE_SIZE ∧
    free_space_pointer (writeLe zeroPage 10 2 24) <
        HEADER_SIZE + (slot_count (writeLe zeroPage 10 2 24) + 1) * SLOT_SIZE ∧
    insertResultIndex (insert_record (writeLe zeroPage 10 2 24) [65]) =
      some (some 0) := by
  refine ⟨by decide, by decide, by decide, ?_⟩
  decide

/-! ## B+ tree index: keys (`storage-engine/src/index/key.rs`)

Strings are modelled by their UTF-8 byte lists; Rust `String` comparison is
byte-lexicographic on UTF-8, which `lexCompare` mirrors.  The model skips
UTF-8 re-validation on deserialization (all traces considered only move
bytes previously produced by `serialize`). -/

/-- `KeyType`: `Integer` or `Varchar { max_length }`. -/
inductive KeyType where
  | integer
  | varchar (max_length : Nat)
  deriving DecidableEq, Repr

/-- `KeyType::max_size`. -/
def KeyType.max_size : KeyType → Nat
  | .integer => 4
  | .varchar ml => 4 + ml

/-- `IndexKey`: `Integer(i32)` (as `Int`) or `Varchar(String)` (as bytes). -/
inductive IndexKey where
  | integer (val : Int)
  | varchar (val : List Nat)
  deriving DecidableEq, Repr

/-- `u8`/`usize` ordering (`Ord::cmp` on unsigned integers). -/
def natCmp (a b : Nat) : Ordering :=
  if a < b then .lt else if b < a then .gt else .eq

/-- `i32` ordering (`Ord::cmp` on signed integers). -/
def intCmp (a b : Int) : Ordering :=
  if a < b then .lt else if b < a then .gt else .eq

/-- Byte-lexicographic comparison, as Rust `str`/`[u8]` `Ord`. -/
def lexCompare : List Nat → List Nat → Ordering
  | [], [] => .eq
  | [], _ :: _ => .lt
  | _ :: _, [] => .gt
  | a :: l1, b :: l2 =>
    match natCmp a b with
    | .eq => lexCompare l1 l2
    | o => o

/-- `IndexKey::compare`; comparing keys of different types panics. -/
def IndexKey.keyCompare : IndexKey → IndexKey → Except Err Ordering
  | .integer a, .integer b => .ok (intCmp a b)
  | .varchar a, .varchar b => .ok (lexCompare a b)
  | _, _ => .error (.panicked "Cannot compare keys of different types")

/-- The `u32` bit pattern of an `i32` value (two's complement). -/
def intToU32 (i : Int) : Nat := (i % 4294967296).toNat

/-- The `i32` value of a `u32` bit pattern (two's complement). -/
def u32ToInt (n : Nat) : Int :=
  if n < 2147483648 then (n : Int) else (n : Int) - 4294967296

/-- `IndexKey::serialize`: integer as 4 bytes (x86 native endian =
little-endian); varchar as 4-byte length then the bytes. -/
def IndexKey.serialize : IndexKey → List Nat
  | .integer i => toLe 4 (intToU32 i)
  | .varchar s => toLe 4 s.length ++ s

/-- `IndexKey::deserialize(&data[off..], kt)`, including the panic of the
slice expression `&data[off..]` itself when `off` exceeds the page, and the
length asserts of `deserialize`. -/
def deserializeKey (pg : Page) (off : Nat) (kt : KeyType) : Except Err IndexKey :=
  if PAGE_SIZE < off then .error (.panicked "slice index out of range")
  else
    match kt with
    | .integer =>
      if PAGE_SIZE - off < 4 then .error (.panicked "Invalid integer key bytes")
      else .ok (.integer (u32ToInt (readLe pg off 4)))
    | .varchar _ =>
      if PAGE_SIZE - off < 4 then .error (.panicked "Invalid varchar key bytes")
      else
        let len := readLe pg off 4
        if PAGE_SIZE - off < 4 + len then
          .error (.panicked "Invalid varchar key bytes: length mismatch")
        else .ok (.varchar (readBytes pg (off + 4) len))

/-- `common/src/table.rs`: `RowId { page_id: PageId, slot_index: u16 }`. -/
structure RowId where
  page_id : Nat
  slot_index : Nat
  deriving DecidableEq, Repr

/-! ## B+ tree node layout (`storage-engine/src/index/node.rs`)

Offsets (from the layout comment and constants at the top of `node.rs`):
page_id 0..8, is_leaf 8, key_count 9..11, parent 11..19; leaves: next 19..27,
prev 27..35, entries from 35; internal: keys and children from 27. -/

/-- `slice.fill(0)` over `[off, off+n)`. -/
def fillZero (pg : Page) (off n : Nat) : Page :=
  fun i => if off ≤ i ∧ i < off + n then 0 else pg i

/-- `slice.copy_within(src..src+n, dst)` (memmove semantics: reads come
from the pre-copy bytes). -/
def copyWithin (pg : Page) (src n dst : Nat) : Page :=
  fun i => if dst ≤ i ∧ i < dst + n then pg (src + (i - dst)) else pg i

namespace BPlusTreeNode

/-- `page_id()`. -/
def page_id (pg : Page) : Nat := readLe pg 0 8

/-- `is_leaf()`: `data[8] != 0`. -/
def is_leaf (pg : Page) : Bool := pg 8 != 0

/-- `key_count()` (u16 at offset 9). -/
def key_count (pg : Page) : Nat := readLe pg 9 2

/-- `set_key_count` (`as u16` truncation is inherent in the 2-byte write). -/
def set_key_count (pg : Page) (c : Nat) : Page := writeLe pg 9 2 c

/-- `parent_page_id()`. -/
def parent_page_id (pg : Page) : Nat := readLe pg 11 8

/-- `set_parent_page_id`. -/
def set_parent_page_id (pg : Page) (p : Nat) : Page := writeLe pg 11 8 p

/-- `next_leaf()`; asserts the node is a leaf. -/
def next_leaf (pg : Page) : Except Err Nat :=
  if is_leaf pg then .ok (readLe pg 19 8)
  else .error (.panicked "next_leaf() called on internal node")

/-- `set_next_leaf`; asserts the node is a leaf. -/
def set_next_leaf (pg : Page) (p : Nat) : Except Err Page :=
  if is_leaf pg then .ok (writeLe pg 19 8 p)
  else .error (.panicked "set_next_leaf() called on internal node")

/-- `prev_leaf()`; asserts the node is a leaf. -/
def prev_leaf (pg : Page) : Except Err Nat :=
  if is_leaf pg then .ok (readLe pg 27 8)
  else .error (.panicked "prev_leaf() called on internal node")

/-- `set_prev_leaf`; asserts the node is a leaf. -/
def set_prev_leaf (pg : Page) (p : Nat) : Except Err Page :=
  if is_leaf pg then .ok (writeLe pg 27 8 p)
  else .error (.panicked "set_prev_leaf() called on internal node")

/-- `initialize(page_id, is_leaf, parent_page_id)`: header writes; the
`set_next_leaf`/`set_prev_leaf` asserts hold because the leaf flag was just
written. -/
def node_init (pg : Page) (pid : Nat) (leaf : Bool) (parent : Nat) : Page :=
  let pg1 := writeLe pg 0 8 pid
  let pg2 := writeLe pg1 8 1 (if leaf then 1 else 0)
  let pg3 := writeLe pg2 9 2 0
  let pg4 := writeLe pg3 11 8 parent
  if leaf then writeLe (writeLe pg4 19 8 INVALID_PAGE_ID) 27 8 INVALID_PAGE_ID
  else pg4

/-- `key_offset(index)`. -/
def key_offset (kt : KeyType) (pg : Page) (index : Nat) : Nat :=
  if is_leaf pg then 35 + index * (kt.max_size + 12)
  else 27 + index * kt.max_size

/-- `get_key(index)`. -/
def get_key (kt : KeyType) (pg : Page) (index : Nat) : Except Err IndexKey :=
  if index < key_count pg then deserializeKey pg (key_offset kt pg index) kt
  else .error (.panicked "Key index out of bounds")

/-- `set_key(index, key)`: write the serialized key, zero-padding up to
`max_size`; slice writes panic when they leave the page. -/
def set_key (kt : KeyType) (pg : Page) (index : Nat) (key : IndexKey) :
    Except Err Page :=
  if index < key_count pg then
    let off := key_offset kt pg index
    let ser := IndexKey.serialize key
    if off + ser.length ≤ PAGE_SIZE then
      let pg1 := writeBytes pg off ser
      if ser.length < kt.max_size then
        if off + kt.max_size ≤ PAGE_SIZE then
          .ok (fillZero pg1 (off + ser.length) (kt.max_size - ser.length))
        else .error (.panicked "slice index out of range")
      else .ok pg1
    else .error (.panicked "slice index out of range")
  else .error (.panicked "Key index out of bounds")

/-- `value_offset(index)`. -/
def value_offset (kt : KeyType) (index : Nat) : Nat :=
  35 + index * (kt.max_size + 12) + kt.max_size

/-- `get_value(index)` (leaf only). -/
def get_value (kt : KeyType) (pg : Page) (index : Nat) : Except Err RowId :=
  if is_leaf pg then
    if index < key_count pg then
      let off := value_offset kt index
      if off + 10 ≤ PAGE_SIZE then
        .ok ⟨readLe pg off 8, readLe pg (off + 8) 2⟩
      else .error (.panicked "slice index out of range")
    else .error (.panicked "Value index out of bounds")
  else .error (.panicked "get_value() called on internal node")

/-- `set_value(index, value)` (leaf only). -/
def set_value (kt : KeyType) (pg : Page) (index : Nat) (value : RowId) :
    Except Err Page :=
  if is_leaf pg then
    if index < key_count pg then
      let off := value_offset kt index
      if off + 10 ≤ PAGE_SIZE then
        .ok (writeLe (writeLe pg off 8 value.page_id) (off + 8) 2 value.slot_index)
      else .error (.panicked "slice index out of range")
    else .error (.panicked "Value index out of bounds")
  else .error (.panicked "set_value() called on internal node")

/-- `child_offset(index)`: the children array starts after `key_count`
keys — computed from the page's **current** key count. -/
def child_offset (kt : KeyType) (pg : Page) (index : Nat) : Nat :=
  27 + key_count pg * kt.max_size + index * 8

/-- `get_child(index)` (internal only; `index ≤ key_count`). -/
def get_child (kt : KeyType) (pg : Page) (index : Nat) : Except Err Nat :=
  if is_leaf pg then .error (.panicked "get_child() called on leaf node")
  else if index ≤ key_count pg then
    let off := child_offset kt pg index
    if off + 8 ≤ PAGE_SIZE then .ok (readLe pg off 8)
    else .error (.panicked "slice index out of range")
  else .error (.panicked "Child index out of bounds")

/-- `set_child(index, child_page_id)` (internal only). -/
def set_child (kt : KeyType) (pg : Page) (index : Nat) (child : Nat) :
    Except Err Page :=
  if is_leaf pg then .error (.panicked "set_child() called on leaf node")
  else if index ≤ key_count pg then
    let off := child_offset kt pg index
    if off + 8 ≤ PAGE_SIZE then .ok (writeLe pg off 8 child)
    else .error (.panicked "slice index out of range")
  else .error (.panicked "Child index out of bounds")

/-- `is_full(max_size)`: `key_count() >= max_size`. -/
def is_full (pg : Page) (max_size : Nat) : Bool := max_size ≤ key_count pg

/-- `binary_search` result: `Ok(index)` found / `Err(index)` insertion
point. -/
inductive SearchResult where
  | found (i : Nat)
  | notFound (i : Nat)
  deriving DecidableEq, Repr

/-- The `while left < right` loop of `binary_search`, on fuel; the interval
shrinks every iteration, so `key_count + 1` steps always suffice and the
fuel-exhausted branch is unreachable. -/
def binary_search_go (kt : KeyType) (pg : Page) (key : IndexKey) :
    Nat → Nat → Nat → Except Err SearchResult
  | 0, _, _ => .error (.panicked "binary search fuel exhausted")
  | fuel + 1, left, right =>
    if left < right then
      let mid := left + (right - left) / 2
      match get_key kt pg mid with
      | .error e => .error e
      | .ok midKey =>
        match IndexKey.keyCompare key midKey with
        | .error e => .error e
        | .ok .lt => binary_search_go kt pg key fuel left mid
        | .ok .gt => binary_search_go kt pg key fuel (mid + 1) right
        | .ok .eq => .ok (.found mid)
    else .ok (.notFound left)

/-- `binary_search(key)`. -/
def binary_search (kt : KeyType) (pg : Page) (key : IndexKey) :
    Except Err SearchResult :=
  binary_search_go kt pg key (key_count pg + 1) 0 (key_count pg)

/-- `insert_at(index, key, value)` (leaf only): bump the count first, shift
entries right with `copy_within`, then write the new entry. -/
def insert_at (kt : KeyType) (pg : Page) (index : Nat) (key : IndexKey)
    (value : RowId) : Except Err Page :=
  if is_leaf pg then
    let count := key_count pg
    if index ≤ count then
      let pg1 := set_key_count pg (count + 1)
      let shifted : Except Err Page :=
        if index < count then
          let entry_size := kt.max_size + 12
          let src := key_offset kt pg1 index
          let dst := src + entry_size
          let n := (count - index) * entry_size
          if src + n ≤ PAGE_SIZE ∧ dst + n ≤ PAGE_SIZE then
            .ok (copyWithin pg1 src n dst)
          else .error (.panicked "copy_within range out of bounds")
        else .ok pg1
      match shifted with
      | .error e => .error e
      | .ok pg2 =>
        match set_key kt pg2 index key with
        | .error e => .error e
        | .ok pg3 => set_value kt pg3 index value
    else .error (.panicked "Insert index out of bounds")
  else .error (.panicked "insert_at() called on internal node")

/-- `insert_key_child(index, key, right_child)` (internal only), translated
operation by operation: the count is bumped first; the child shift source
offset is computed from the **pre-increment** count (`node.rs` line 335),
while the subsequent `set_key`/`set_child` and all later reads resolve the
children base from the **post-increment** count. -/
def insert_key_child (kt : KeyType) (pg : Page) (index : Nat) (key : IndexKey)
    (right_child : Nat) : Except Err Page :=
  if is_leaf pg then .error (.panicked "insert_key_child() called on leaf node")
  else
    let count := key_count pg
    if index ≤ count then
      let pg1 := set_key_count pg (count + 1)
      let shifted : Except Err Page :=
        if index < count then
          let src := key_offset kt pg1 index
          let dst := src + kt.max_size
          let n := (count - index) * kt.max_size
          if src + n ≤ PAGE_SIZE ∧ dst + n ≤ PAGE_SIZE then
            .ok (copyWithin pg1 src n dst)
          else .error (.panicked "copy_within range out of bounds")
        else .ok pg1
      match shifted with
      | .error e => .error e
      | .ok pg2 =>
        let src_c := 27 + count * kt.max_size + (index + 1) * 8
        let dst_c := src_c + 8
        let n_c := (count - index) * 8
        if src_c + n_c ≤ PAGE_SIZE ∧ dst_c + n_c ≤ PAGE_SIZE then
          let pg3 := copyWithin pg2 src_c n_c dst_c
          match set_key kt pg3 index key with
          | .error e => .error e
          | .ok pg4 => set_child kt pg4 (index + 1) right_child
        else .error (.panicked "copy_within range out of bounds")
    else .error (.panicked "Insert index out of bounds")

end BPlusTreeNode

/-! ## Index metadata (`storage-engine/src/index/metadata.rs`) -/

/-- `IndexMetadata`: root page, key type, computed fanouts. -/
structure IndexMetadata where
  root_page_id : PageId
  key_type : KeyType
  leaf_max_size : Nat
  internal_max_size : Nat
  deriving DecidableEq, Repr

namespace IndexMetadata

/-- `compute_fanout`: leaf `(PAGE_SIZE - 32) / (key + 12)`, internal
`(PAGE_SIZE - 24) / (key + 8)`, both cast `as u16`. -/
def compute_fanout (kt : KeyType) : Nat × Nat :=
  ((PAGE_SIZE - 32) / (kt.max_size + 12) % 65536,
   (PAGE_SIZE - 24) / (kt.max_size + 8) % 65536)

/-- `IndexMetadata::new`. -/
def new (kt : KeyType) : IndexMetadata :=
  { root_page_id := INVALID_PAGE_ID, key_type := kt,
    leaf_max_size := (compute_fanout kt).1,
    internal_max_size := (compute_fanout kt).2 }

/-- `IndexMetadata::serialize` (17 bytes). -/
def serialize (m : IndexMetadata) : List Nat :=
  toLe 8 m.root_page_id ++
    (match m.key_type with
     | .integer => 0 :: toLe 4 0
     | .varchar ml => 1 :: toLe 4 ml) ++
    toLe 2 m.leaf_max_size ++ toLe 2 m.internal_max_size

/-- `IndexMetadata::deserialize` from a page (a full page always passes the
17-byte length assert; an unknown discriminant panics). -/
def deserialize (pg : Page) : Except Err IndexMetadata :=
  let root := readLe pg 0 8
  let disc := pg 8
  let maxlen := readLe pg 9 4
  let leaf := readLe pg 13 2
  let internal := readLe pg 15 2
  if disc = 0 then
    .ok { root_page_id := root, key_type := .integer,
          leaf_max_size := leaf, internal_max_size := internal }
  else if disc = 1 then
    .ok { root_page_id := root, key_type := .varchar maxlen,
          leaf_max_size := leaf, internal_max_size := internal }
  else .error (.panicked "Invalid key type discriminant")

end IndexMetadata

/-! ## The tree's view of the buffer pool

`BPlusTree` runs over `Arc<dyn BufferPoolManager>`.  `Store` models the
pool with enough frames for the working set (no evictions fail) and
write-through guard semantics: a guard's mutations are visible to every
later fetch of the same page, as in the concurrent BPM (shared frames) and
the actor BPM (write-back on guard drop).  `fetch_page` of a never-allocated
page fails the way `DiskManager::read_page` does on a short read. -/

structure Store where
  pages : PageId → Page
  next_page_id : Nat

namespace Store

/-- Commit a page mutation. -/
def write (st : Store) (pid : PageId) (pg : Page) : Store :=
  { st with pages := fun q => if q = pid then pg else st.pages q }

/-- `bpm.fetch_page(pid)`. -/
def fetch_page (st : Store) (pid : PageId) : Except Err Page :=
  if pid < st.next_page_id then .ok (st.pages pid)
  else .error (.ioError .unexpectedEof "failed to fill whole buffer")

/-- `bpm.new_page()`: allocate the next page id with a zeroed frame. -/
def new_page (st : Store) : PageId × Store :=
  (st.next_page_id,
   { pages := fun q => if q = st.next_page_id then zeroPage else st.pages q,
     next_page_id := st.next_page_id + 1 })

end Store

/-! ## B+ tree operations (`storage-engine/src/index/bptree.rs`) -/

/-- The `BPlusTree` struct fields (the `bpm` handle is the `Store` each
operation threads). -/
structure BPlusTree where
  metadata_page_id : PageId
  key_type : KeyType
  leaf_max_size : Nat
  internal_max_size : Nat
  deriving DecidableEq, Repr

namespace BPlusTree

/-- `BPlusTree::new(kt)`: metadata page, root leaf, metadata write. -/
def new (kt : KeyType) (st : Store) : Except Err (BPlusTree × Store) :=
  let p1 := Store.new_page st
  let metadata_page_id := p1.1
  let m0 := IndexMetadata.new kt
  let p2 := Store.new_page p1.2
  let root_page_id := p2.1
  let st2 := p2.2
  let m : IndexMetadata := { m0 with root_page_id := root_page_id }
  let root_pg := BPlusTreeNode.node_init (st2.pages root_page_id) root_page_id
      true INVALID_PAGE_ID
  let st3 := st2.write root_page_id root_pg
  let md_pg := writeBytes (st3.pages metadata_page_id) 0 (IndexMetadata.serialize m)
  let st4 := st3.write metadata_page_id md_pg
  .ok ({ metadata_page_id := metadata_page_id, key_type := m.key_type,
         leaf_max_size := m.leaf_max_size,
         internal_max_size := m.internal_max_size }, st4)

/-- `load_metadata` (read-only, so no store is returned). -/
def load_metadata (t : BPlusTree) (st : Store) : Except Err IndexMetadata :=
  match Store.fetch_page st t.metadata_page_id with
  | .error e => .error e
  | .ok pg => IndexMetadata.deserialize pg

/-- `update_root(new_root_page_id)`. -/
def update_root (t : BPlusTree) (new_root : PageId) (st : Store) :
    Except Err Unit × Store :=
  match load_metadata t st with
  | .error e => (.error e, st)
  | .ok m =>
    match Store.fetch_page st t.metadata_page_id with
    | .error e => (.error e, st)
    | .ok pg =>
      (.ok (), st.write t.metadata_page_id
        (writeBytes pg 0 (IndexMetadata.serialize { m with root_page_id := new_root })))

/-- The descent loop of `search`, on fuel (the Rust `loop` has no bound;
every trace proved below terminates well within its fuel). -/
def search_go (t : BPlusTree) (key : IndexKey) (st : Store) :
    Nat → PageId → Except Err (Option RowId)
  | 0, _ => .error (.panicked "descent fuel exhausted")
  | fuel + 1, pid =>
    match Store.fetch_page st pid with
    | .error e => .error e
    | .ok pg =>
      if BPlusTreeNode.is_leaf pg then
        match BPlusTreeNode.binary_search t.key_type pg key with
        | .error e => .error e
        | .ok (.found i) =>
          match BPlusTreeNode.get_value t.key_type pg i with
          | .error e => .error e
          | .ok v => .ok (some v)
        | .ok (.notFound _) => .ok none
      else
        match BPlusTreeNode.binary_search t.key_type pg key with
        | .error e => .error e
        | .ok r =>
          match BPlusTreeNode.get_child t.key_type pg
              (match r with | .found i => i + 1 | .notFound i => i) with
          | .error e => .error e
          | .ok cpid => search_go t key st fuel cpid

/-- `search(key)` (read-only). -/
def search (t : BPlusTree) (key : IndexKey) (fuel : Nat) (st : Store) :
    Except Err (Option RowId) :=
  match load_metadata t st with
  | .error e => .error e
  | .ok m => search_go t key st fuel m.root_page_id

/-- `find_leaf_for_insert(key, start)` (read-only), on fuel. -/
def find_leaf_for_insert (t : BPlusTree) (key : IndexKey) (st : Store) :
    Nat → PageId → Except Err PageId
  | 0, _ => .error (.panicked "descent fuel exhausted")
  | fuel + 1, pid =>
    match Store.fetch_page st pid with
    | .error e => .error e
    | .ok pg =>
      if BPlusTreeNode.is_leaf pg then .ok pid
      else
        match BPlusTreeNode.binary_search t.key_type pg key with
        | .error e => .error e
        | .ok r =>
          match BPlusTreeNode.get_child t.key_type pg
              (match r with | .found i => i + 1 | .notFound i => i) with
          | .error e => .error e
          | .ok cpid => find_leaf_for_insert t key st fuel cpid

/-- The entry-moving loop of `split_leaf` (`for i in split_point..old_count`):
read key and value at `i` from the old node, append into the new node at
`i - split_point`. -/
def moveEntries (kt : KeyType) (old : Page) (sp : Nat) :
    List Nat → Page → Except Err Page
  | [], np => .ok np
  | i :: rest, np =>
    match BPlusTreeNode.get_key kt old i with
    | .error e => .error e
    | .ok key =>
      match BPlusTreeNode.get_value kt old i with
      | .error e => .error e
      | .ok value =>
        match BPlusTreeNode.insert_at kt np (i - sp) key value with
        | .error e => .error e
        | .ok np2 => moveEntries kt old sp rest np2

/-- `split_leaf(leaf_page_id)`: right-biased split point, move the tail to
a fresh leaf, truncate the old count, splice the leaf chain, fix the old
successor's `prev`, and re-fetch the new leaf for the split key. -/
def split_leaf (t : BPlusTree) (leaf_page_id : PageId) (st : Store) :
    Except Err (IndexKey × PageId) × Store :=
  match Store.fetch_page st leaf_page_id with
  | .error e => (.error e, st)
  | .ok old0 =>
    let p := Store.new_page st
    let new_leaf_page_id := p.1
    let st1 := p.2
    let new0 := BPlusTreeNode.node_init (st1.pages new_leaf_page_id)
        new_leaf_page_id true (BPlusTreeNode.parent_page_id old0)
    let old_count := BPlusTreeNode.key_count old0
    let split_point_e : Except Err Nat :=
      if 2 < old_count then
        match BPlusTreeNode.get_key t.key_type old0 (old_count - 1) with
        | .error e => .error e
        | .ok last_key =>
          match BPlusTreeNode.get_key t.key_type old0 (old_count - 2) with
          | .error e => .error e
          | .ok second_last_key =>
            match IndexKey.keyCompare last_key second_last_key with
            | .error e => .error e
            | .ok .gt => .ok (old_count * 3 / 4)
            | .ok _ => .ok (old_count / 2)
      else .ok (old_count / 2)
    match split_point_e with
    | .error e => (.error e, st1)
    | .ok split_point =>
      match moveEntries t.key_type old0 split_point
          (List.range' split_point (old_count - split_point)) new0 with
      | .error e => (.error e, st1)
      | .ok new1 =>
        let old1 := BPlusTreeNode.set_key_count old0 split_point
        match BPlusTreeNode.next_leaf old1 with
        | .error e => (.error e, st1)
        | .ok old_next =>
          match BPlusTreeNode.set_next_leaf new1 old_next with
          | .error e => (.error e, st1)
          | .ok new2 =>
            match BPlusTreeNode.set_prev_leaf new2 leaf_page_id with
            | .error e => (.error e, st1)
            | .ok new3 =>
              match BPlusTreeNode.set_next_leaf old1 new_leaf_page_id with
              | .error e => (.error e, st1)
              | .ok old2 =>
                let st2 := (st1.write leaf_page_id old2).write new_leaf_page_id new3
                let st3e : Except Err Store :=
                  if old_next ≠ INVALID_PAGE_ID then
                    match Store.fetch_page st2 old_next with
                    | .error e => .error e
                    | .ok next_pg =>
                      match BPlusTreeNode.set_prev_leaf next_pg new_leaf_page_id with
                      | .error e => .error e
                      | .ok next2 => .ok (st2.write old_next next2)
                  else .ok st2
                match st3e with
                | .error e => (.error e, st2)
                | .ok st3 =>
                  match Store.fetch_page st3 new_leaf_page_id with
                  | .error e => (.error e, st3)
                  | .ok new_pg =>
                    match BPlusTreeNode.get_key t.key_type new_pg 0 with
                    | .error e => (.error e, st3)
                    | .ok split_key =>
                      (.ok (split_key, new_leaf_page_id), st3)

/-- The key/child-moving loop of `split_internal`
(`for i in (split_point+1)..old_count`). -/
def moveKeysChildren (kt : KeyType) (old : Page) (sp : Nat) :
    List Nat → Page → Except Err Page
  | [], np => .ok np
  | i :: rest, np =>
    match BPlusTreeNode.get_key kt old i with
    | .error e => .error e
    | .ok key =>
      match BPlusTreeNode.get_child kt old (i + 1) with
      | .error e => .error e
      | .ok child =>
        match BPlusTreeNode.insert_key_child kt np (i - sp - 1) key child with
        | .error e => .error e
        | .ok np2 => moveKeysChildren kt old sp rest np2

/-- The parent-pointer fixup loop of `split_internal`
(`for i in 0..=new_node.key_count()`). -/
def updateParents (t : BPlusTree) (new_pid : PageId) :
    List Nat → Store → Except Err Unit × Store
  | [], st => (.ok (), st)
  | i :: rest, st =>
    match Store.fetch_page st new_pid with
    | .error e => (.error e, st)
    | .ok npg =>
      match BPlusTreeNode.get_child t.key_type npg i with
      | .error e => (.error e, st)
      | .ok child_pid =>
        match Store.fetch_page st child_pid with
        | .error e => (.error e, st)
        | .ok cpg =>
          updateParents t new_pid rest
            (st.write child_pid (BPlusTreeNode.set_parent_page_id cpg new_pid))

/-- `split_internal(internal_page_id)`. -/
def split_internal (t : BPlusTree) (internal_page_id : PageId) (st : Store) :
    Except Err (IndexKey × PageId) × Store :=
  match Store.fetch_page st internal_page_id with
  | .error e => (.error e, st)
  | .ok old0 =>
    let p := Store.new_page st
    let new_pid := p.1
    let st1 := p.2
    let new0 := BPlusTreeNode.node_init (st1.pages new_pid) new_pid false
        (BPlusTreeNode.parent_page_id old0)
    let old_count := BPlusTreeNode.key_count old0
    let split_point := old_count / 2
    match BPlusTreeNode.get_key t.key_type old0 split_point with
    | .error e => (.error e, st1)
    | .ok split_key =>
      match moveKeysChildren t.key_type old0 split_point
          (List.range' (split_point + 1) (old_count - (split_point + 1))) new0 with
      | .error e => (.error e, st1)
      | .ok new1 =>
        match BPlusTreeNode.get_child t.key_type old0 (split_point + 1) with
        | .error e => (.error e, st1)
        | .ok first_child =>
          match BPlusTreeNode.set_child t.key_type new1 0 first_child with
          | .error e => (.error e, st1)
          | .ok new2 =>
            let old1 := BPlusTreeNode.set_key_count old0 split_point
            let st2 := (st1.write internal_page_id old1).write new_pid new2
            match updateParents t new_pid
                (List.range (BPlusTreeNode.key_count new2 + 1)) st2 with
            | (.error e, st3) => (.error e, st3)
            | (.ok _, st3) => (.ok (split_key, new_pid), st3)

/-- `split_root(old_root_page_id)`: split the old root (leaf or internal),
build the new root above both halves, fix parent pointers, update the
metadata root. -/
def split_root (t : BPlusTree) (old_root_page_id : PageId) (st : Store) :
    Except Err Unit × Store :=
  match Store.fetch_page st old_root_page_id with
  | .error e => (.error e, st)
  | .ok old_pg =>
    match (if BPlusTreeNode.is_leaf old_pg
           then split_leaf t old_root_page_id st
           else split_internal t old_root_page_id st) with
    | (.error e, st1) => (.error e, st1)
    | (.ok (split_key, new_page_id), st1) =>
      let p := Store.new_page st1
      let new_root_page_id := p.1
      let st2 := p.2
      let nr0 := BPlusTreeNode.node_init (st2.pages new_root_page_id)
          new_root_page_id false INVALID_PAGE_ID
      match BPlusTreeNode.set_child t.key_type nr0 0 old_root_page_id with
      | .error e => (.error e, st2)
      | .ok nr1 =>
        match BPlusTreeNode.insert_key_child t.key_type nr1 0 split_key
            new_page_id with
        | .error e => (.error e, st2)
        | .ok nr2 =>
          let st3 := st2.write new_root_page_id nr2
          match Store.fetch_page st3 old_root_page_id with
          | .error e => (.error e, st3)
          | .ok og =>
            let st4 := st3.write old_root_page_id
                (BPlusTreeNode.set_parent_page_id og new_root_page_id)
            match Store.fetch_page st4 new_page_id with
            | .error e => (.error e, st4)
            | .ok npg =>
              let st5 := st4.write new_page_id
                  (BPlusTreeNode.set_parent_page_id npg new_root_page_id)
              update_root t new_root_page_id st5

/-- `insert_into_parent(_left, key, right_page_id, parent_page_id)`: insert
directly when the parent has room, otherwise surface the unimplemented
parent-split error (state untouched). -/
def insert_into_parent (t : BPlusTree) (_left_page_id : PageId)
    (key : IndexKey) (right_page_id parent_page_id : PageId) (st : Store) :
    Except Err Unit × Store :=
  match Store.fetch_page st parent_page_id with
  | .error e => (.error e, st)
  | .ok ppg =>
    if BPlusTreeNode.is_full ppg t.internal_max_size then
      (.error (.ioError .other "Parent split not yet implemented"), st)
    else
      match BPlusTreeNode.binary_search t.key_type ppg key with
      | .error e => (.error e, st)
      | .ok r =>
        match BPlusTreeNode.insert_key_child t.key_type ppg
            (match r with | .found i => i + 1 | .notFound i => i)
            key right_page_id with
        | .error e => (.error e, st)
        | .ok ppg2 => (.ok (), st.write parent_page_id ppg2)

/-- `split_leaf_and_insert(leaf_page_id, key, value)`. -/
def split_leaf_and_insert (t : BPlusTree) (leaf_page_id : PageId)
    (key : IndexKey) (value : RowId) (st : Store) : Except Err Unit × Store :=
  match split_leaf t leaf_page_id st with
  | (.error e, st1) => (.error e, st1)
  | (.ok (split_key, new_page_id), st1) =>
    match IndexKey.keyCompare key split_key with
    | .error e => (.error e, st1)
    | .ok ord =>
      let target_page_id := if ord = .lt then leaf_page_id else new_page_id
      match Store.fetch_page st1 target_page_id with
      | .error e => (.error e, st1)
      | .ok tpg =>
        match BPlusTreeNode.binary_search t.key_type tpg key with
        | .error e => (.error e, st1)
        | .ok (.found _) => (.error (.ioError .alreadyExists "Duplicate key"), st1)
        | .ok (.notFound insert_index) =>
          match BPlusTreeNode.insert_at t.key_type tpg insert_index key value with
          | .error e => (.error e, st1)
          | .ok tpg2 =>
            let parent_page_id := BPlusTreeNode.parent_page_id tpg2
            let st2 := st1.write target_page_id tpg2
            if parent_page_id ≠ INVALID_PAGE_ID then
              insert_into_parent t leaf_page_id split_key new_page_id
                parent_page_id st2
            else (.ok (), st2)

/-- `insert_internal(key, value)`: descend to the leaf, reject duplicates,
insert in place or split. -/
def insert_internal (t : BPlusTree) (key : IndexKey) (value : RowId)
    (fuel : Nat) (st : Store) : Except Err Unit × Store :=
  match load_metadata t st with
  | .error e => (.error e, st)
  | .ok m =>
    match find_leaf_for_insert t key st fuel m.root_page_id with
    | .error e => (.error e, st)
    | .ok leaf_page_id =>
      match Store.fetch_page st leaf_page_id with
      | .error e => (.error e, st)
      | .ok leaf_pg =>
        match BPlusTreeNode.binary_search t.key_type leaf_pg key with
        | .error e => (.error e, st)
        | .ok (.found _) => (.error (.ioError .alreadyExists "Duplicate key"), st)
        | .ok (.notFound insert_index) =>
          if BPlusTreeNode.is_full leaf_pg t.leaf_max_size then
            split_leaf_and_insert t leaf_page_id key value st
          else
            match BPlusTreeNode.insert_at t.key_type leaf_pg insert_index
                key value with
            | .error e => (.error e, st)
            | .ok leaf2 => (.ok (), st.write leaf_page_id leaf2)

/-- `insert(key, value)`: split a full root first, then insert. -/
def insert (t : BPlusTree) (key : IndexKey) (value : RowId) (fuel : Nat)
    (st : Store) : Except Err Unit × Store :=
  match load_metadata t st with
  | .error e => (.error e, st)
  | .ok m =>
    match Store.fetch_page st m.root_page_id with
    | .error e => (.error e, st)
    | .ok root_pg =>
      let root_is_full := if BPlusTreeNode.is_leaf root_pg
        then BPlusTreeNode.is_full root_pg t.leaf_max_size
        else BPlusTreeNode.is_full root_pg t.internal_max_size
      if root_is_full then
        match split_root t m.root_page_id st with
        | (.error e, st1) => (.error e, st1)
        | (.ok _, st1) => insert_internal t key value fuel st1
      else insert_internal t key value fuel st

end BPlusTree

/-! ## A concrete tree trace (Varchar keys, `max_length = 802`)

With `max_length = 802` the computed fanouts are tiny (`leaf_max_size = 4`,
`internal_max_size = 5`), so a handful of inserts exercises a root split.
The single-character keys are the ASCII bytes of "a".."e". -/

/-- `KeyType::Varchar { max_length: 802 }`. -/
def vKt : KeyType := .varchar 802

/-- The empty database (fresh zero-length file; every page reads as zeros
once allocated). -/
def vStore0 : Store := ⟨fun _ => zeroPage, 0⟩

/-- The tree handle `BPlusTree::new` returns on the empty database:
metadata on page 0, fanouts 4 and 5. -/
def vTree : BPlusTree := ⟨0, vKt, 4, 5⟩

/-- The store after `BPlusTree::new` (metadata page 0, root leaf page 1). -/
def vStore1 : Store :=
  match BPlusTree.new vKt vStore0 with
  | .ok q => q.2
  | .error _ => vStore0

/-- One insert step of the trace (fuel 10 amply covers the ≤ 2-level
descents). -/
def vIns (k : List Nat) (v : RowId) (s : Store) : Store :=
  (BPlusTree.insert vTree (.varchar k) v 10 s).2

/-- Store after inserting "a". -/
def vStA : Store := vIns [97] ⟨200, 0⟩ vStore1

/-- Store after inserting "a", "b". -/
def vStB : Store := vIns [98] ⟨201, 0⟩ vStA

/-- Store after inserting "a", "b", "c". -/
def vStC : Store := vIns [99] ⟨202, 0⟩ vStB

/-- Store after inserting "a", "b", "c", "d" (root leaf now full). -/
def vStD : Store := vIns [100] ⟨203, 0⟩ vStC

/-- Store after inserting "a", "b", "c", "d", "e" (the fifth insert split
the root). -/
def vStE : Store := vIns [101] ⟨204, 0⟩ vStD

/-- C1.  The insert/search round-trip FAILS on the code as written: on a
freshly created Varchar(802) tree, the five pairwise-distinct inserts
"a".."e" all return `Ok` (the fifth splits the root), but a subsequent
`search("a")` panics instead of returning `Some(200, 0)`.  The root split's
`insert_key_child` clobbers child 0 of the new root (the children are
stored at the pre-increment base `INTERNAL_DATA_OFFSET + count * max_key_size`
but never moved to the post-increment base every later read uses, and the
inserted key's zero padding overwrites them), so the descent for any key
below the split key lands on page 0 — the metadata page — whose bytes are
then read as a leaf with 802 keys, and `get_key(401)` indexes far past the
page. -/
theorem tree_insert_search_roundtrip :
    BPlusTree.new vKt vStore0 = .ok (vTree, vStore1) ∧
    (BPlusTree.insert vTree (.varchar [97]) ⟨200, 0⟩ 10 vStore1).1 = .ok () ∧
    (BPlusTree.insert vTree (.varchar [98]) ⟨201, 0⟩ 10 vStA).1 = .ok () ∧
    (BPlusTree.insert vTree (.varchar [99]) ⟨202, 0⟩ 10 vStB).1 = .ok () ∧
    (BPlusTree.insert vTree (.varchar [100]) ⟨203, 0⟩ 10 vStC).1 = .ok () ∧
    (BPlusTree.insert vTree (.varchar [101]) ⟨204, 0⟩ 10 vStD).1 = .ok () ∧
    BPlusTree.search vTree (.varchar [97]) 10 vStE =
      .error (.panicked "slice index out of range") :=
  ⟨rfl, rfl, rfl, rfl, rfl, rfl, rfl⟩

/-- C2 counterexample.  In the tree holding "a".."d" (root leaf full,
`search("d")` finds the key), inserting the duplicate "d": (a) the error is
`IoError(AlreadyExists, "Duplicate key")` — `BpmError` has no `DuplicateKey`
variant to return — and (b) the tree is NOT structurally unchanged: `insert`
splits the full root before the duplicate check ever runs, so the metadata
page's root pointer moves from page 1 to a fresh page 3 and two pages are
allocated. -/
theorem tree_duplicate_insert_cex :
    BPlusTree.search vTree (.varchar [100]) 10 vStD = .ok (some ⟨203, 0⟩) ∧
    (BPlusTree.insert vTree (.varchar [100]) ⟨205, 0⟩ 10 vStD).1 =
      .error (.ioError .alreadyExists "Duplicate key") ∧
    readLe (vStD.pages 0) 0 8 = 1 ∧ vStD.next_page_id = 2 ∧
    readLe ((BPlusTree.insert vTree (.varchar [100]) ⟨205, 0⟩ 10 vStD).2.pages 0)
      0 8 = 3 ∧
    ((BPlusTree.insert vTree (.varchar [100]) ⟨205, 0⟩ 10 vStD).2.next_page_id = 4) :=
  ⟨rfl, rfl, rfl, rfl, rfl, rfl⟩

/-- C2 (amended).  When the root is **not** full and the key is already
present in the leaf the descent reaches, `insert` returns
`IoError(AlreadyExists, "Duplicate key")` (the error taxonomy has no
`DuplicateKey` variant) and the store — every page and the metadata — is
exactly unchanged.  (Without the root-not-full hypothesis the tree is
mutated first: see `tree_duplicate_insert_cex`.) -/
theorem tree_duplicate_insert (t : BPlusTree) (key : IndexKey) (value : RowId)
    (fuel : Nat) (st : Store) (m : IndexMetadata) (leaf_pid : PageId) (i : Nat)
    (hm : BPlusTree.load_metadata t st = .ok m)
    (hroot : m.root_page_id < st.next_page_id)
    (hrf : (if BPlusTreeNode.is_leaf (st.pages m.root_page_id)
            then BPlusTreeNode.is_full (st.pages m.root_page_id) t.leaf_max_size
            else BPlusTreeNode.is_full (st.pages m.root_page_id)
              t.internal_max_size) = false)
    (hfl : BPlusTree.find_leaf_for_insert t key st fuel m.root_page_id =
      .ok leaf_pid)
    (hlp : leaf_pid < st.next_page_id)
    (hbs : BPlusTreeNode.binary_search t.key_type (st.pages leaf_pid) key =
      .ok (.found i)) :
    BPlusTree.insert t key value fuel st =
      (.error (.ioError .alreadyExists "Duplicate key"), st) := by
  have hfetchr : Store.fetch_page st m.root_page_id = .ok (st.pages m.root_page_id) := by
    unfold Store.fetch_page
    rw [if_pos hroot]
  have hfetchl : Store.fetch_page st leaf_pid = .ok (st.pages leaf_pid) := by
    unfold Store.fetch_page
    rw [if_pos hlp]
  unfold BPlusTree.insert
  rw [hm]
  dsimp only
  rw [hfetchr]
  dsimp only
  rw [hrf]
  simp only [Bool.false_eq_true, if_false]
  unfold BPlusTree.insert_internal
  rw [hm]
  dsimp only
  rw [hfl]
  dsimp only
  rw [hfetchl]
  dsimp only
  rw [hbs]

/-- A small Integer tree: metadata page 0, root leaf page 1. -/
def iStore0 : Store := ⟨fun _ => zeroPage, 0⟩

/-- The Integer tree handle (fanouts 254 and 339). -/
def iTree : BPlusTree := ⟨0, .integer, 254, 339⟩

/-- Store after `BPlusTree::new(Integer)`. -/
def iStore1 : Store :=
  match BPlusTree.new .integer iStore0 with
  | .ok q => q.2
  | .error _ => iStore0

/-- Store after inserting key 10. -/
def iStore2 : Store := (BPlusTree.insert iTree (.integer 10) ⟨100, 1⟩ 10 iStore1).2

/-- Witness for C2: re-inserting key 10 into the Integer tree that holds it
(root not full) yields the AlreadyExists error and the unchanged store. -/
theorem tree_duplicate_insert_witness :
    BPlusTree.load_metadata iTree iStore2 = .ok ⟨1, .integer, 254, 339⟩ ∧
    (1 : Nat) < iStore2.next_page_id ∧
    BPlusTree.find_leaf_for_insert iTree (.integer 10) iStore2 5 1 = .ok 1 ∧
    BPlusTreeNode.binary_search KeyType.integer (iStore2.pages 1) (.integer 10) =
      .ok (.found 0) ∧
    BPlusTree.insert iTree (.integer 10) ⟨100, 2⟩ 5 iStore2 =
      (.error (.ioError .alreadyExists "Duplicate key"), iStore2) :=
  ⟨rfl, by decide, rfl, rfl,
    tree_duplicate_insert iTree (.integer 10) ⟨100, 2⟩ 5 iStore2
      ⟨1, .integer, 254, 339⟩ 1 0 rfl (by decide) rfl rfl (by decide) rfl⟩

/-- C8.  After a leaf split, if the parent that should receive the split
key is already full, `insert_into_parent` surfaces
`IoError(Other, "Parent split not yet implemented")` to the caller and
leaves the store untouched: no internal split happens and the split key is
not propagated. -/
theorem tree_parent_full_error (t : BPlusTree) (left : PageId) (key : IndexKey)
    (right parent_pid : PageId) (st : Store)
    (h1 : parent_pid < st.next_page_id)
    (h2 : BPlusTreeNode.is_full (st.pages parent_pid) t.internal_max_size = true) :
    BPlusTree.insert_into_parent t left key right parent_pid st =
      (.error (.ioError .other "Parent split not yet implemented"), st) := by
  have hfetch : Store.fetch_page st parent_pid = .ok (st.pages parent_pid) := by
    unfold Store.fetch_page
    rw [if_pos h1]
  unfold BPlusTree.insert_into_parent
  rw [hfetch]
  dsimp only
  rw [h2]
  rfl

/-- An internal node (page everywhere) holding one key — full for
`internal_max_size = 1`. -/
def c8Page : Page :=
  BPlusTreeNode.set_key_count (BPlusTreeNode.node_init zeroPage 1 false 0) 1

/-- A two-page store whose page 1 is the full parent. -/
def c8Store : Store := ⟨fun _ => c8Page, 2⟩

/-- Witness for C8 on a concrete full parent. -/
theorem tree_parent_full_error_witness :
    BPlusTreeNode.is_full (c8Store.pages 1) (1 : Nat) = true ∧
    BPlusTree.insert_into_parent ⟨0, .integer, 254, 1⟩ 5 (.integer 7) 6 1 c8Store =
      (.error (.ioError .other "Parent split not yet implemented"), c8Store) :=
  ⟨by decide,
    tree_parent_full_error ⟨0, .integer, 254, 1⟩ 5 (.integer 7) 6 1 c8Store
      (by decide) (by decide)⟩

/-! ## Leaf split characterization (Integer keys)

For `KeyType::Integer` every entry is 16 bytes (4-byte key, 12-byte
`RowId` slot) starting at offset 35; `leafIntKey`/`leafIntValue` read an
entry directly off the bytes, mirroring `get_key`/`get_value` at in-bounds
indices. -/

/-- The integer key of leaf entry `i`, read off the page bytes. -/
def leafIntKey (pg : Page) (i : Nat) : Int := u32ToInt (readLe pg (35 + i * 16) 4)

/-- The `RowId` of leaf entry `i`, read off the page bytes. -/
def leafIntValue (pg : Page) (i : Nat) : RowId :=
  ⟨readLe pg (35 + i * 16 + 4) 8, readLe pg (35 + i * 16 + 12) 2⟩

theorem writeBytes_apply_ne (pg : Page) (off : Nat) (bs : List Nat) (i : Nat)
    (h : i < off ∨ off + bs.length ≤ i) : writeBytes pg off bs i = pg i := by
  rw [writeBytes_apply, if_neg]
  omega

theorem writeLe_apply_ne (pg : Page) (off w v i : Nat)
    (h : i < off ∨ off + w ≤ i) : writeLe pg off w v i = pg i := by
  unfold writeLe
  apply writeBytes_apply_ne
  rw [toLe_length]
  exact h

theorem readLe_congr (pg1 pg2 : Page) (o w : Nat)
    (h : ∀ x, o ≤ x → x < o + w → pg1 x = pg2 x) :
    readLe pg1 o w = readLe pg2 o w := by
  unfold readLe
  congr 1
  simp only [readBytes, List.map_inj_left, List.mem_range]
  intro j hj
  exact h (o + j) (by omega) (by omega)

theorem intToU32_u32ToInt {m : Nat} (h : m < 4294967296) :
    intToU32 (u32ToInt m) = m := by
  unfold intToU32 u32ToInt
  split <;> omega

theorem intToU32_lt (i : Int) : intToU32 i < 4294967296 := by
  unfold intToU32
  omega

namespace BPlusTreeNode

theorem is_leaf_congr (pg1 pg2 : Page) (h : pg1 8 = pg2 8) :
    is_leaf pg1 = is_leaf pg2 := by
  unfold is_leaf
  rw [h]

/-- `get_key` at an in-bounds index of an Integer leaf reads
`leafIntKey`. -/
theorem get_key_int (pg : Page) (i : Nat)
    (hl : is_leaf pg = true) (hi : i < key_count pg)
    (hb : 35 + i * 16 + 16 ≤ PAGE_SIZE) :
    get_key .integer pg i = .ok (.integer (leafIntKey pg i)) := by
  unfold get_key key_offset deserializeKey
  rw [if_pos hi, hl]
  simp only [KeyType.max_size, PAGE_SIZE, if_true] at *
  rw [if_neg (by omega), if_neg (by omega)]
  rfl

/-- `get_value` at an in-bounds index of an Integer leaf reads
`leafIntValue`. -/
theorem get_value_int (pg : Page) (i : Nat)
    (hl : is_leaf pg = true) (hi : i < key_count pg)
    (hb : 35 + i * 16 + 16 ≤ PAGE_SIZE) :
    get_value .integer pg i = .ok (leafIntValue pg i) := by
  unfold get_value value_offset
  rw [hl]
  simp only [KeyType.max_size, PAGE_SIZE, if_true] at *
  rw [if_pos hi, if_pos (by omega)]
  rfl

theorem node_init_is_leaf (pg : Page) (pid parent : Nat) :
    is_leaf (node_init pg pid true parent) = true := by
  unfold is_leaf node_init
  rw [if_pos rfl]
  rw [writeLe_apply_ne _ _ _ _ _ (by omega), writeLe_apply_ne _ _ _ _ _ (by omega),
      writeLe_apply_ne _ _ _ _ _ (by omega), writeLe_apply_ne _ _ _ _ _ (by omega)]
  rfl

theorem node_init_key_count (pg : Page) (pid parent : Nat) :
    key_count (node_init pg pid true parent) = 0 := by
  unfold key_count node_init
  rw [if_pos rfl]
  rw [readLe_writeLe_disjoint _ _ _ _ _ _ (by omega),
      readLe_writeLe_disjoint _ _ _ _ _ _ (by omega),
      readLe_writeLe_disjoint _ _ _ _ _ _ (by omega)]
  rw [readLe_writeLe_same]
  rfl

end BPlusTreeNode

/-- The page produced by appending an Integer entry at index `j` (the
`index = count` case of `insert_at`: no shift; count bump, key write,
RowId write). -/
def appendEntry (pg : Page) (j : Nat) (k : Int) (v : RowId) : Page :=
  writeLe (writeLe (writeBytes (writeLe pg 9 2 (j + 1))
      (35 + j * 16) (toLe 4 (intToU32 k)))
    (35 + j * 16 + 4) 8 v.page_id)
  (35 + j * 16 + 12) 2 v.slot_index

theorem appendEntry_readLe_ne (pg : Page) (j : Nat) (k : Int) (v : RowId)
    (o w : Nat) (h1 : o + w ≤ 9 ∨ 11 ≤ o)
    (h2 : o + w ≤ 35 + j * 16 ∨ 35 + j * 16 + 14 ≤ o) :
    readLe (appendEntry pg j k v) o w = readLe pg o w := by
  unfold appendEntry
  rw [readLe_writeLe_disjoint _ _ _ _ _ _ (by omega),
      readLe_writeLe_disjoint _ _ _ _ _ _ (by omega),
      readLe_writeBytes_disjoint _ _ _ _ _ (by rw [toLe_length]; omega),
      readLe_writeLe_disjoint _ _ _ _ _ _ (by omega)]

theorem appendEntry_is_leaf (pg : Page) (j : Nat) (k : Int) (v : RowId) :
    BPlusTreeNode.is_leaf (appendEntry pg j k v) = BPlusTreeNode.is_leaf pg := by
  apply BPlusTreeNode.is_leaf_congr
  unfold appendEntry
  rw [writeLe_apply_ne _ _ _ _ _ (by omega),
      writeLe_apply_ne _ _ _ _ _ (by omega),
      writeBytes_apply_ne _ _ _ _ (by rw [toLe_length]; omega),
      writeLe_apply_ne _ _ _ _ _ (by omega)]

theorem appendEntry_key_count (pg : Page) (j : Nat) (k : Int) (v : RowId)
    (h : j + 1 < 65536) :
    BPlusTreeNode.key_count (appendEntry pg j k v) = j + 1 := by
  unfold BPlusTreeNode.key_count appendEntry
  rw [readLe_writeLe_disjoint _ _ _ _ _ _ (by omega),
      readLe_writeLe_disjoint _ _ _ _ _ _ (by omega),
      readLe_writeBytes_disjoint _ _ _ _ _ (by rw [toLe_length]; omega),
      readLe_writeLe_same]
  exact Nat.mod_eq_of_lt (by omega)

theorem appendEntry_key (pg : Page) (j : Nat) (k : Int) (v : RowId) :
    readLe (appendEntry pg j k v) (35 + j * 16) 4 = intToU32 k := by
  unfold appendEntry
  rw [readLe_writeLe_disjoint _ _ _ _ _ _ (by omega),
      readLe_writeLe_disjoint _ _ _ _ _ _ (by omega)]
  show readLe (writeLe (writeLe pg 9 2 (j + 1)) (35 + j * 16) 4 (intToU32 k))
    (35 + j * 16) 4 = intToU32 k
  rw [readLe_writeLe_same]
  exact Nat.mod_eq_of_lt (by have := intToU32_lt k; omega)

theorem appendEntry_value (pg : Page) (j : Nat) (k : Int) (v : RowId)
    (hpid : v.page_id < 18446744073709551616) (hslot : v.slot_index < 65536) :
    leafIntValue (appendEntry pg j k v) j = v := by
  unfold leafIntValue appendEntry
  have h1 : readLe (writeLe (writeLe (writeBytes (writeLe pg 9 2 (j + 1))
      (35 + j * 16) (toLe 4 (intToU32 k)))
      (35 + j * 16 + 4) 8 v.page_id)
      (35 + j * 16 + 12) 2 v.slot_index) (35 + j * 16 + 4) 8 = v.page_id := by
    rw [readLe_writeLe_disjoint _ _ _ _ _ _ (by omega), readLe_writeLe_same]
    exact Nat.mod_eq_of_lt (by omega)
  have h2 : readLe (writeLe (writeLe (writeBytes (writeLe pg 9 2 (j + 1))
      (35 + j * 16) (toLe 4 (intToU32 k)))
      (35 + j * 16 + 4) 8 v.page_id)
      (35 + j * 16 + 12) 2 v.slot_index) (35 + j * 16 + 12) 2 = v.slot_index := by
    rw [readLe_writeLe_same]
    exact Nat.mod_eq_of_lt (by omega)
  rw [h1, h2]

theorem appendEntry_apply_ne (pg : Page) (j : Nat) (k : Int) (v : RowId)
    (b : Nat) (h1 : b ≠ 9) (h2 : b ≠ 10)
    (h3 : b < 35 + j * 16 ∨ 35 + j * 16 + 14 ≤ b) :
    appendEntry pg j k v b = pg b := by
  unfold appendEntry
  rw [writeLe_apply_ne _ _ _ _ _ (by omega),
      writeLe_apply_ne _ _ _ _ _ (by omega),
      writeBytes_apply_ne _ _ _ _ (by rw [toLe_length]; omega),
      writeLe_apply_ne _ _ _ _ _ (by omega)]

theorem leafIntKey_congr (pg1 pg2 : Page) (i : Nat)
    (h : ∀ x, 35 + i * 16 ≤ x → x < 35 + i * 16 + 14 → pg1 x = pg2 x) :
    leafIntKey pg1 i = leafIntKey pg2 i := by
  unfold leafIntKey
  rw [readLe_congr _ pg2 _ _ (fun x hx1 hx2 => h x hx1 (by omega))]

theorem leafIntValue_congr (pg1 pg2 : Page) (i : Nat)
    (h : ∀ x, 35 + i * 16 ≤ x → x < 35 + i * 16 + 14 → pg1 x = pg2 x) :
    leafIntValue pg1 i = leafIntValue pg2 i := by
  unfold leafIntValue
  rw [readLe_congr _ pg2 _ _ (fun x hx1 hx2 => h x (by omega) (by omega)),
      readLe_congr _ pg2 _ _ (fun x hx1 hx2 => h x (by omega) (by omega))]

/-- `insert_at` at `index = key_count` on an Integer leaf appends: no
shift, and the result is the explicit three-write page `appendEntry`. -/
theorem insert_at_append (pg : Page) (j : Nat) (k : Int) (v : RowId)
    (hl : BPlusTreeNode.is_leaf pg = true) (hc : BPlusTreeNode.key_count pg = j)
    (hb : 35 + (j + 1) * 16 ≤ PAGE_SIZE) :
    BPlusTreeNode.insert_at .integer pg j (.integer k) v =
      .ok (appendEntry pg j k v) := by
  have hj : j + 1 < 65536 := by
    simp only [PAGE_SIZE] at hb
    omega
  have hc2 : BPlusTreeNode.key_count (BPlusTreeNode.set_key_count pg (j + 1)) =
      j + 1 := by
    unfold BPlusTreeNode.key_count BPlusTreeNode.set_key_count
    rw [readLe_writeLe_same]
    exact Nat.mod_eq_of_lt hj
  have hl2 : BPlusTreeNode.is_leaf (BPlusTreeNode.set_key_count pg (j + 1)) =
      true := by
    rw [BPlusTreeNode.is_leaf_congr _ pg, hl]
    unfold BPlusTreeNode.set_key_count
    rw [writeLe_apply_ne _ _ _ _ _ (by omega)]
  unfold BPlusTreeNode.insert_at
  rw [hl]
  simp only [if_true]
  rw [hc]
  rw [if_pos (Nat.le_refl j), if_neg (Nat.lt_irrefl j)]
  dsimp only
  unfold BPlusTreeNode.set_key
  rw [hc2, BPlusTreeNode.key_offset, hl2]
  simp only [if_true, KeyType.max_size, IndexKey.serialize, toLe_length, PAGE_SIZE]
  rw [if_pos (by omega : j < j + 1), if_pos (by simp only [PAGE_SIZE] at hb; omega),
      if_neg (Nat.lt_irrefl 4)]
  dsimp only
  unfold BPlusTreeNode.set_value BPlusTreeNode.value_offset
  have hl3 : BPlusTreeNode.is_leaf (writeBytes
      (BPlusTreeNode.set_key_count pg (j + 1)) (35 + j * (4 + 12))
      (toLe 4 (intToU32 k))) = true := by
    rw [BPlusTreeNode.is_leaf_congr _ (BPlusTreeNode.set_key_count pg (j + 1)),
        hl2]
    rw [writeBytes_apply_ne _ _ _ _ (by rw [toLe_length]; omega)]
  have hc3 : BPlusTreeNode.key_count (writeBytes
      (BPlusTreeNode.set_key_count pg (j + 1)) (35 + j * (4 + 12))
      (toLe 4 (intToU32 k))) = j + 1 := by
    unfold BPlusTreeNode.key_count
    rw [readLe_writeBytes_disjoint _ _ _ _ _ (by rw [toLe_length]; omega)]
    exact hc2
  rw [hl3]
  simp only [if_true, KeyType.max_size, PAGE_SIZE]
  rw [hc3, if_pos (by omega : j < j + 1), if_pos (by simp only [PAGE_SIZE] at hb; omega)]
  unfold appendEntry BPlusTreeNode.set_key_count writeLe
  rfl

/-- The `split_leaf` moving loop on an Integer leaf: starting from a leaf
page holding `i - sp` already-moved entries, moving entries
`i, …, i+m-1` of the old leaf succeeds and yields a page with
`(i - sp) + m` entries, whose first `i - sp` entries and whole header
(page id, leaf flag, parent, next, prev) are untouched and whose entries
from `i - sp` on are the old leaf's entries from `i` on. -/
theorem moveEntries_int_spec (old : Page) (sp : Nat)
    (hlo : BPlusTreeNode.is_leaf old = true) :
    ∀ (m i : Nat) (np : Page), sp ≤ i →
    BPlusTreeNode.is_leaf np = true →
    BPlusTreeNode.key_count np = i - sp →
    (∀ jj, i ≤ jj → jj < i + m → jj < BPlusTreeNode.key_count old) →
    35 + (i + m) * 16 ≤ PAGE_SIZE →
    ∃ np2, BPlusTree.moveEntries .integer old sp (List.range' i m) np = .ok np2 ∧
      BPlusTreeNode.is_leaf np2 = true ∧
      BPlusTreeNode.key_count np2 = (i - sp) + m ∧
      (∀ b, b ≠ 9 → b ≠ 10 → b < 35 + (i - sp) * 16 → np2 b = np b) ∧
      (∀ jj, i - sp ≤ jj → jj < (i - sp) + m →
        leafIntKey np2 jj = leafIntKey old (sp + jj) ∧
        leafIntValue np2 jj = leafIntValue old (sp + jj)) := by
  intro m
  induction m with
  | zero =>
    intro i np hsp hln hcn _hold _hb
    refine ⟨np, rfl, hln, by omega, fun b _ _ _ => rfl, fun jj h1 h2 => ?_⟩
    omega
  | succ m ih =>
    intro i np hsp hln hcn hold hb
    simp only [PAGE_SIZE] at hb
    have hio : i < BPlusTreeNode.key_count old := hold i (Nat.le_refl i) (by omega)
    have hgk := BPlusTreeNode.get_key_int old i hlo hio
      (by simp only [PAGE_SIZE]; omega)
    have hgv := BPlusTreeNode.get_value_int old i hlo hio
      (by simp only [PAGE_SIZE]; omega)
    have hins := insert_at_append np (i - sp) (leafIntKey old i)
      (leafIntValue old i) hln hcn (by simp only [PAGE_SIZE]; omega)
    rw [List.range'_succ]
    unfold BPlusTree.moveEntries
    rw [hgk]
    dsimp only
    rw [hgv]
    dsimp only
    rw [hins]
    dsimp only
    have hl3 : BPlusTreeNode.is_leaf
        (appendEntry np (i - sp) (leafIntKey old i) (leafIntValue old i)) = true := by
      rw [appendEntry_is_leaf]
      exact hln
    have hc3 : BPlusTreeNode.key_count
        (appendEntry np (i - sp) (leafIntKey old i) (leafIntValue old i)) =
        i + 1 - sp := by
      rw [appendEntry_key_count _ _ _ _ (by omega)]
      omega
    obtain ⟨np2, hmv, hl2, hc2, hpres, hent⟩ := ih (i + 1)
      (appendEntry np (i - sp) (leafIntKey old i) (leafIntValue old i))
      (by omega) hl3 hc3
      (fun jj h1 h2 => hold jj (by omega) (by omega))
      (by simp only [PAGE_SIZE]; omega)
    refine ⟨np2, hmv, hl2, by omega, ?_, ?_⟩
    · intro b hb9 hb10 hblt
      rw [hpres b hb9 hb10 (by omega)]
      exact appendEntry_apply_ne _ _ _ _ _ hb9 hb10 (by omega)
    · intro jj h1 h2
      rcases Nat.lt_or_ge jj (i + 1 - sp) with hcase | hcase
      · have hjj : jj = i - sp := by omega
        subst hjj
        have hbytes : ∀ x, 35 + (i - sp) * 16 ≤ x → x < 35 + (i - sp) * 16 + 14 →
            np2 x = appendEntry np (i - sp) (leafIntKey old i)
              (leafIntValue old i) x := by
          intro x hx1 hx2
          exact hpres x (by omega) (by omega) (by omega)
        constructor
        · rw [leafIntKey_congr _ _ _ hbytes]
          unfold leafIntKey
          rw [appendEntry_key]
          rw [intToU32_u32ToInt (by have := readLe_lt old (35 + i * 16) 4; omega)]
          have hi' : sp + (i - sp) = i := by omega
          rw [hi']
        · rw [leafIntValue_congr _ _ _ hbytes]
          have hi' : sp + (i - sp) = i := by omega
          rw [hi']
          apply appendEntry_value
          · have := readLe_lt old (35 + i * 16 + 4) 8
            unfold leafIntValue
            dsimp only
            omega
          · have := readLe_lt old (35 + i * 16 + 12) 2
            unfold leafIntValue
            dsimp only
            omega
      · have h := hent jj hcase (by omega)
        exact h

/-- C6.  Splitting an Integer leaf with `n ≥ 2` entries (entries in
bounds, old leaf resident, the old successor — when any — a distinct
resident leaf): the split point keeps `n*3/4` entries in the old leaf when
the last two keys ascend (sequential pattern) and `n/2` otherwise; the old
leaf keeps its first `sp` entries and the new leaf (the freshly allocated
page) receives the remaining `n - sp` in order; the new leaf is spliced
directly after the old one (`new.next = old.next`, `new.prev = old leaf`,
`old.next = new leaf`, and the former successor's `prev` becomes the new
leaf when there is one); and the returned split key is the first key of
the new leaf, which the new leaf retains. -/
theorem tree_split_leaf_behavior (t : BPlusTree) (leaf_pid : Nat)
    (st : Store) (n sp : Nat)
    (hkt : t.key_type = .integer)
    (hfetch : leaf_pid < st.next_page_id)
    (hns : st.next_page_id < 18446744073709551616)
    (hleaf : BPlusTreeNode.is_leaf (st.pages leaf_pid) = true)
    (hn : n = BPlusTreeNode.key_count (st.pages leaf_pid))
    (hn2 : 2 ≤ n)
    (hbound : 35 + n * 16 ≤ PAGE_SIZE)
    (hsp : sp = if intCmp (leafIntKey (st.pages leaf_pid) (n - 1))
        (leafIntKey (st.pages leaf_pid) (n - 2)) = .gt
      then n * 3 / 4 else n / 2)
    (hnext : readLe (st.pages leaf_pid) 19 8 = INVALID_PAGE_ID ∨
      (readLe (st.pages leaf_pid) 19 8 < st.next_page_id ∧
       readLe (st.pages leaf_pid) 19 8 ≠ leaf_pid ∧
       BPlusTreeNode.is_leaf (st.pages (readLe (st.pages leaf_pid) 19 8)) = true)) :
    (BPlusTree.split_leaf t leaf_pid st).1 =
      .ok (.integer (leafIntKey (st.pages leaf_pid) sp), st.next_page_id) ∧
    BPlusTreeNode.key_count
      ((BPlusTree.split_leaf t leaf_pid st).2.pages leaf_pid) = sp ∧
    BPlusTreeNode.key_count
      ((BPlusTree.split_leaf t leaf_pid st).2.pages st.next_page_id) = n - sp ∧
    (∀ i, i < sp →
      leafIntKey ((BPlusTree.split_leaf t leaf_pid st).2.pages leaf_pid) i =
        leafIntKey (st.pages leaf_pid) i ∧
      leafIntValue ((BPlusTree.split_leaf t leaf_pid st).2.pages leaf_pid) i =
        leafIntValue (st.pages leaf_pid) i) ∧
    (∀ i, i < n - sp →
      leafIntKey ((BPlusTree.split_leaf t leaf_pid st).2.pages st.next_page_id) i =
        leafIntKey (st.pages leaf_pid) (sp + i) ∧
      leafIntValue ((BPlusTree.split_leaf t leaf_pid st).2.pages st.next_page_id) i =
        leafIntValue (st.pages leaf_pid) (sp + i)) ∧
    readLe ((BPlusTree.split_leaf t leaf_pid st).2.pages st.next_page_id) 19 8 =
      readLe (st.pages leaf_pid) 19 8 ∧
    readLe ((BPlusTree.split_leaf t leaf_pid st).2.pages st.next_page_id) 27 8 =
      leaf_pid ∧
    readLe ((BPlusTree.split_leaf t leaf_pid st).2.pages leaf_pid) 19 8 =
      st.next_page_id ∧
    (readLe (st.pages leaf_pid) 19 8 ≠ INVALID_PAGE_ID →
      readLe ((BPlusTree.split_leaf t leaf_pid st).2.pages
        (readLe (st.pages leaf_pid) 19 8)) 27 8 = st.next_page_id) ∧
    leafIntKey ((BPlusTree.split_leaf t leaf_pid st).2.pages st.next_page_id) 0 =
      leafIntKey (st.pages leaf_pid) sp := by
  have hn253 : n ≤ 253 := by
    simp only [PAGE_SIZE] at hbound
    omega
  have hspn : sp < n := by
    rw [hsp]
    split <;> omega
  have hspn2 : sp ≤ n := Nat.le_of_lt hspn
  have hpg : Store.fetch_page st leaf_pid = .ok (st.pages leaf_pid) := by
    unfold Store.fetch_page
    rw [if_pos hfetch]
  -- the moved entries
  obtain ⟨np1, hmv, hl1, hc1, _hpres1, hent1⟩ :=
    moveEntries_int_spec (st.pages leaf_pid) sp hleaf (n - sp) sp
      (BPlusTreeNode.node_init zeroPage st.next_page_id true
        (BPlusTreeNode.parent_page_id (st.pages leaf_pid)))
      (Nat.le_refl sp)
      (BPlusTreeNode.node_init_is_leaf _ _ _)
      (by rw [BPlusTreeNode.node_init_key_count]; omega)
      (by intro jj h1 h2; rw [← hn]; omega)
      (by simp only [PAGE_SIZE] at *; omega)
  have hc1' : BPlusTreeNode.key_count np1 = n - sp := by omega
  have hent1' : ∀ jj, jj < n - sp →
      leafIntKey np1 jj = leafIntKey (st.pages leaf_pid) (sp + jj) ∧
      leafIntValue np1 jj = leafIntValue (st.pages leaf_pid) (sp + jj) := by
    intro jj h2
    exact hent1 jj (by omega) (by omega)
  -- header helpers
  have hlw : ∀ (q : Page) (o w v : Nat), 9 ≤ o →
      BPlusTreeNode.is_leaf (writeLe q o w v) = BPlusTreeNode.is_leaf q := by
    intro q o w v ho
    exact BPlusTreeNode.is_leaf_congr _ _ (writeLe_apply_ne _ _ _ _ _ (by omega))
  have hkcw : ∀ (q : Page) (o w v : Nat), 11 ≤ o →
      BPlusTreeNode.key_count (writeLe q o w v) = BPlusTreeNode.key_count q := by
    intro q o w v ho
    unfold BPlusTreeNode.key_count
    exact readLe_writeLe_disjoint _ _ _ _ _ _ (by omega)
  -- the split-point computation equals the claim's formula
  have hspe : (if 2 < n then
      match BPlusTreeNode.get_key KeyType.integer (st.pages leaf_pid) (n - 1) with
      | .error e => .error e
      | .ok last_key =>
        match BPlusTreeNode.get_key KeyType.integer (st.pages leaf_pid) (n - 2) with
        | .error e => .error e
        | .ok second_last_key =>
          match IndexKey.keyCompare last_key second_last_key with
          | .error e => .error e
          | .ok .gt => .ok (n * 3 / 4)
          | .ok _ => .ok (n / 2)
      else .ok (n / 2) : Except Err Nat) = .ok sp := by
    rcases Nat.lt_or_ge 2 n with h2n | h2n
    · rw [if_pos h2n]
      rw [BPlusTreeNode.get_key_int _ _ hleaf (by omega) (by simp only [PAGE_SIZE] at *; omega),
          BPlusTreeNode.get_key_int _ _ hleaf (by omega) (by simp only [PAGE_SIZE] at *; omega)]
      dsimp only [IndexKey.keyCompare]
      rcases ho : intCmp (leafIntKey (st.pages leaf_pid) (n - 1))
          (leafIntKey (st.pages leaf_pid) (n - 2)) with _ | _ | _
      · dsimp only
        rw [hsp, if_neg (by rw [ho]; intro hcon; cases hcon)]
      · dsimp only
        rw [hsp, if_neg (by rw [ho]; intro hcon; cases hcon)]
      · dsimp only
        rw [hsp, if_pos ho]
    · have hne : n = 2 := by omega
      rw [if_neg (by omega)]
      subst hne
      rw [hsp]
      split <;> rfl
  -- leaf-chain write helpers
  have hlsk : BPlusTreeNode.is_leaf
      (BPlusTreeNode.set_key_count (st.pages leaf_pid) sp) = true := by
    unfold BPlusTreeNode.set_key_count
    rw [hlw _ _ _ _ (by omega)]
    exact hleaf
  have hnl : BPlusTreeNode.next_leaf
      (BPlusTreeNode.set_key_count (st.pages leaf_pid) sp) =
      .ok (readLe (st.pages leaf_pid) 19 8) := by
    unfold BPlusTreeNode.next_leaf
    rw [hlsk]
    simp only [if_true]
    unfold BPlusTreeNode.set_key_count
    rw [readLe_writeLe_disjoint _ _ _ _ _ _ (by omega)]
  have hsn1 : BPlusTreeNode.set_next_leaf np1 (readLe (st.pages leaf_pid) 19 8) =
      .ok (writeLe np1 19 8 (readLe (st.pages leaf_pid) 19 8)) := by
    unfold BPlusTreeNode.set_next_leaf
    rw [hl1]
    simp only [if_true]
  have hsp1 : BPlusTreeNode.set_prev_leaf
      (writeLe np1 19 8 (readLe (st.pages leaf_pid) 19 8)) leaf_pid =
      .ok (writeLe (writeLe np1 19 8 (readLe (st.pages leaf_pid) 19 8))
        27 8 leaf_pid) := by
    unfold BPlusTreeNode.set_prev_leaf
    rw [hlw _ _ _ _ (by omega), hl1]
    simp only [if_true]
  have hsn2 : BPlusTreeNode.set_next_leaf
      (BPlusTreeNode.set_key_count (st.pages leaf_pid) sp) st.next_page_id =
      .ok (writeLe (BPlusTreeNode.set_key_count (st.pages leaf_pid) sp)
        19 8 st.next_page_id) := by
    unfold BPlusTreeNode.set_next_leaf
    rw [hlsk]
    simp only [if_true]
  -- facts about the final old and new pages
  have hlnew3 : BPlusTreeNode.is_leaf
      (writeLe (writeLe np1 19 8 (readLe (st.pages leaf_pid) 19 8))
        27 8 leaf_pid) = true := by
    rw [hlw _ _ _ _ (by omega), hlw _ _ _ _ (by omega)]
    exact hl1
  have hkcnew3 : BPlusTreeNode.key_count
      (writeLe (writeLe np1 19 8 (readLe (st.pages leaf_pid) 19 8))
        27 8 leaf_pid) = n - sp := by
    rw [hkcw _ _ _ _ (by omega), hkcw _ _ _ _ (by omega)]
    exact hc1'
  have hknew3 : ∀ jj, jj < n - sp →
      leafIntKey (writeLe (writeLe np1 19 8 (readLe (st.pages leaf_pid) 19 8))
        27 8 leaf_pid) jj = leafIntKey (st.pages leaf_pid) (sp + jj) ∧
      leafIntValue (writeLe (writeLe np1 19 8 (readLe (st.pages leaf_pid) 19 8))
        27 8 leaf_pid) jj = leafIntValue (st.pages leaf_pid) (sp + jj) := by
    intro jj hjj
    have hbytes : ∀ x, 35 + jj * 16 ≤ x → x < 35 + jj * 16 + 14 →
        writeLe (writeLe np1 19 8 (readLe (st.pages leaf_pid) 19 8))
          27 8 leaf_pid x = np1 x := by
      intro x hx1 hx2
      rw [writeLe_apply_ne _ _ _ _ _ (by omega),
          writeLe_apply_ne _ _ _ _ _ (by omega)]
    exact ⟨(leafIntKey_congr _ _ _ hbytes).trans (hent1' jj hjj).1,
      (leafIntValue_congr _ _ _ hbytes).trans (hent1' jj hjj).2⟩
  have hnext3 : readLe (writeLe (writeLe np1 19 8
      (readLe (st.pages leaf_pid) 19 8)) 27 8 leaf_pid) 19 8 =
      readLe (st.pages leaf_pid) 19 8 := by
    rw [readLe_writeLe_disjoint _ _ _ _ _ _ (by omega), readLe_writeLe_same]
    exact Nat.mod_eq_of_lt (by have := readLe_lt (st.pages leaf_pid) 19 8; omega)
  have hprev3 : readLe (writeLe (writeLe np1 19 8
      (readLe (st.pages leaf_pid) 19 8)) 27 8 leaf_pid) 27 8 = leaf_pid := by
    rw [readLe_writeLe_same]
    exact Nat.mod_eq_of_lt (by omega)
  have hkey03 : leafIntKey (writeLe (writeLe np1 19 8
      (readLe (st.pages leaf_pid) 19 8)) 27 8 leaf_pid) 0 =
      leafIntKey (st.pages leaf_pid) sp := by
    have h := (hknew3 0 (by omega)).1
    rw [Nat.add_zero] at h
    exact h
  have hkcold2 : BPlusTreeNode.key_count
      (writeLe (BPlusTreeNode.set_key_count (st.pages leaf_pid) sp)
        19 8 st.next_page_id) = sp := by
    rw [hkcw _ _ _ _ (by omega)]
    unfold BPlusTreeNode.key_count BPlusTreeNode.set_key_count
    rw [readLe_writeLe_same]
    exact Nat.mod_eq_of_lt (by omega)
  have hentold2 : ∀ i, i < sp →
      leafIntKey (writeLe (BPlusTreeNode.set_key_count (st.pages leaf_pid) sp)
        19 8 st.next_page_id) i = leafIntKey (st.pages leaf_pid) i ∧
      leafIntValue (writeLe (BPlusTreeNode.set_key_count (st.pages leaf_pid) sp)
        19 8 st.next_page_id) i = leafIntValue (st.pages leaf_pid) i := by
    intro i _hi
    have hbytes : ∀ x, 35 + i * 16 ≤ x → x < 35 + i * 16 + 14 →
        writeLe (BPlusTreeNode.set_key_count (st.pages leaf_pid) sp)
          19 8 st.next_page_id x = st.pages leaf_pid x := by
      intro x hx1 hx2
      rw [writeLe_apply_ne _ _ _ _ _ (by omega)]
      show writeLe (st.pages leaf_pid) 9 2 sp x = st.pages leaf_pid x
      rw [writeLe_apply_ne _ _ _ _ _ (by omega)]
    exact ⟨leafIntKey_congr _ _ _ hbytes, leafIntValue_congr _ _ _ hbytes⟩
  have hnextold2 : readLe (writeLe
      (BPlusTreeNode.set_key_count (st.pages leaf_pid) sp)
      19 8 st.next_page_id) 19 8 = st.next_page_id := by
    rw [readLe_writeLe_same]
    exact Nat.mod_eq_of_lt (by omega)
  have hz : ((Store.new_page st).2.pages st.next_page_id) = zeroPage := by
    unfold Store.new_page
    dsimp only
    rw [if_pos rfl]
  have hnp : (Store.new_page st).1 = st.next_page_id := rfl
  by_cases hc0 : readLe (st.pages leaf_pid) 19 8 = INVALID_PAGE_ID
  · -- no successor to fix
    have hfetchnew : Store.fetch_page
        (((Store.new_page st).2.write leaf_pid
          (writeLe (BPlusTreeNode.set_key_count (st.pages leaf_pid) sp)
            19 8 st.next_page_id)).write st.next_page_id
          (writeLe (writeLe np1 19 8 (readLe (st.pages leaf_pid) 19 8))
            27 8 leaf_pid)) st.next_page_id =
        .ok (writeLe (writeLe np1 19 8 (readLe (st.pages leaf_pid) 19 8))
          27 8 leaf_pid) := by
      unfold Store.fetch_page Store.write Store.new_page
      dsimp only
      rw [if_pos (Nat.lt_succ_self st.next_page_id), if_pos rfl]
    have hsplit : BPlusTree.split_leaf t leaf_pid st =
        (.ok (.integer (leafIntKey (st.pages leaf_pid) sp), st.next_page_id),
         ((Store.new_page st).2.write leaf_pid
           (writeLe (BPlusTreeNode.set_key_count (st.pages leaf_pid) sp)
             19 8 st.next_page_id)).write st.next_page_id
           (writeLe (writeLe np1 19 8 (readLe (st.pages leaf_pid) 19 8))
             27 8 leaf_pid)) := by
      unfold BPlusTree.split_leaf
      rw [hkt, hpg]
      dsimp only
      rw [← hn, hnp, hz]
      rw [hspe]
      dsimp only
      rw [hmv]
      dsimp only
      rw [hnl]
      dsimp only
      rw [hsn1]
      dsimp only
      rw [hsp1]
      dsimp only
      rw [hsn2]
      dsimp only
      rw [hc0, if_neg (fun h => h rfl)]
      dsimp only
      rw [← hc0, hfetchnew]
      dsimp only
      rw [BPlusTreeNode.get_key_int _ 0 hlnew3 (by omega)
        (by simp only [PAGE_SIZE]; omega)]
      dsimp only
      rw [hkey03]
    have hpl : (((Store.new_page st).2.write leaf_pid
        (writeLe (BPlusTreeNode.set_key_count (st.pages leaf_pid) sp)
          19 8 st.next_page_id)).write st.next_page_id
        (writeLe (writeLe np1 19 8 (readLe (st.pages leaf_pid) 19 8))
          27 8 leaf_pid)).pages leaf_pid =
        writeLe (BPlusTreeNode.set_key_count (st.pages leaf_pid) sp)
          19 8 st.next_page_id := by
      unfold Store.write
      dsimp only
      rw [if_neg (show ¬(leaf_pid = st.next_page_id) by omega), if_pos rfl]
    have hpn : (((Store.new_page st).2.write leaf_pid
        (writeLe (BPlusTreeNode.set_key_count (st.pages leaf_pid) sp)
          19 8 st.next_page_id)).write st.next_page_id
        (writeLe (writeLe np1 19 8 (readLe (st.pages leaf_pid) 19 8))
          27 8 leaf_pid)).pages st.next_page_id =
        writeLe (writeLe np1 19 8 (readLe (st.pages leaf_pid) 19 8))
          27 8 leaf_pid := by
      unfold Store.write
      dsimp only
      rw [if_pos rfl]
    rw [hsplit]
    dsimp only
    rw [hpl, hpn]
    exact ⟨rfl, hkcold2, hkcnew3, hentold2, hknew3, hnext3, hprev3, hnextold2,
      fun h => absurd hc0 h, hkey03⟩
  · -- fix the successor's prev pointer
    obtain ⟨hnxlt, hnxne, hnxleaf⟩ := hnext.resolve_left hc0
    have hfetchsucc : Store.fetch_page
        (((Store.new_page st).2.write leaf_pid
          (writeLe (BPlusTreeNode.set_key_count (st.pages leaf_pid) sp)
            19 8 st.next_page_id)).write st.next_page_id
          (writeLe (writeLe np1 19 8 (readLe (st.pages leaf_pid) 19 8))
            27 8 leaf_pid)) (readLe (st.pages leaf_pid) 19 8) =
        .ok (st.pages (readLe (st.pages leaf_pid) 19 8)) := by
      unfold Store.fetch_page Store.write Store.new_page
      dsimp only
      rw [if_pos (show readLe (st.pages leaf_pid) 19 8 < st.next_page_id + 1
            by omega),
          if_neg (show ¬(readLe (st.pages leaf_pid) 19 8 = st.next_page_id)
            by omega),
          if_neg hnxne,
          if_neg (show ¬(readLe (st.pages leaf_pid) 19 8 = st.next_page_id)
            by omega)]
    have hsetsucc : BPlusTreeNode.set_prev_leaf
        (st.pages (readLe (st.pages leaf_pid) 19 8)) st.next_page_id =
        .ok (writeLe (st.pages (readLe (st.pages leaf_pid) 19 8))
          27 8 st.next_page_id) := by
      unfold BPlusTreeNode.set_prev_leaf
      rw [hnxleaf]
      simp only [if_true]
    have hfetchnew : Store.fetch_page
        ((((Store.new_page st).2.write leaf_pid
          (writeLe (BPlusTreeNode.set_key_count (st.pages leaf_pid) sp)
            19 8 st.next_page_id)).write st.next_page_id
          (writeLe (writeLe np1 19 8 (readLe (st.pages leaf_pid) 19 8))
            27 8 leaf_pid)).write (readLe (st.pages leaf_pid) 19 8)
          (writeLe (st.pages (readLe (st.pages leaf_pid) 19 8))
            27 8 st.next_page_id)) st.next_page_id =
        .ok (writeLe (writeLe np1 19 8 (readLe (st.pages leaf_pid) 19 8))
          27 8 leaf_pid) := by
      unfold Store.fetch_page Store.write Store.new_page
      dsimp only
      rw [if_pos (Nat.lt_succ_self st.next_page_id),
          if_neg (show ¬(st.next_page_id = readLe (st.pages leaf_pid) 19 8)
            by omega),
          if_pos rfl]
    have hsplit : BPlusTree.split_leaf t leaf_pid st =
        (.ok (.integer (leafIntKey (st.pages leaf_pid) sp), st.next_page_id),
         (((Store.new_page st).2.write leaf_pid
           (writeLe (BPlusTreeNode.set_key_count (st.pages leaf_pid) sp)
             19 8 st.next_page_id)).write st.next_page_id
           (writeLe (writeLe np1 19 8 (readLe (st.pages leaf_pid) 19 8))
             27 8 leaf_pid)).write (readLe (st.pages leaf_pid) 19 8)
           (writeLe (st.pages (readLe (st.pages leaf_pid) 19 8))
             27 8 st.next_page_id)) := by
      unfold BPlusTree.split_leaf
      rw [hkt, hpg]
      dsimp only
      rw [← hn, hnp, hz]
      rw [hspe]
      dsimp only
      rw [hmv]
      dsimp only
      rw [hnl]
      dsimp only
      rw [hsn1]
      dsimp only
      rw [hsp1]
      dsimp only
      rw [hsn2]
      dsimp only
      rw [if_pos hc0]
      rw [hfetchsucc]
      dsimp only
      rw [hsetsucc]
      dsimp only
      rw [hfetchnew]
      dsimp only
      rw [BPlusTreeNode.get_key_int _ 0 hlnew3 (by omega)
        (by simp only [PAGE_SIZE]; omega)]
      dsimp only
      rw [hkey03]
    have hpl : ((((Store.new_page st).2.write leaf_pid
        (writeLe (BPlusTreeNode.set_key_count (st.pages leaf_pid) sp)
          19 8 st.next_page_id)).write st.next_page_id
        (writeLe (writeLe np1 19 8 (readLe (st.pages leaf_pid) 19 8))
          27 8 leaf_pid)).write (readLe (st.pages leaf_pid) 19 8)
        (writeLe (st.pages (readLe (st.pages leaf_pid) 19 8))
          27 8 st.next_page_id)).pages leaf_pid =
        writeLe (BPlusTreeNode.set_key_count (st.pages leaf_pid) sp)
          19 8 st.next_page_id := by
      unfold Store.write
      dsimp only
      rw [if_neg (Ne.symm hnxne),
          if_neg (show ¬(leaf_pid = st.next_page_id) by omega), if_pos rfl]
    have hpn : ((((Store.new_page st).2.write leaf_pid
        (writeLe (BPlusTreeNode.set_key_count (st.pages leaf_pid) sp)
          19 8 st.next_page_id)).write st.next_page_id
        (writeLe (writeLe np1 19 8 (readLe (st.pages leaf_pid) 19 8))
          27 8 leaf_pid)).write (readLe (st.pages leaf_pid) 19 8)
        (writeLe (st.pages (readLe (st.pages leaf_pid) 19 8))
          27 8 st.next_page_id)).pages st.next_page_id =
        writeLe (writeLe np1 19 8 (readLe (st.pages leaf_pid) 19 8))
          27 8 leaf_pid := by
      unfold Store.write
      dsimp only
      rw [if_neg (show ¬(st.next_page_id = readLe (st.pages leaf_pid) 19 8)
            by omega), if_pos rfl]
    have hpo : ((((Store.new_page st).2.write leaf_pid
        (writeLe (BPlusTreeNode.set_key_count (st.pages leaf_pid) sp)
          19 8 st.next_page_id)).write st.next_page_id
        (writeLe (writeLe np1 19 8 (readLe (st.pages leaf_pid) 19 8))
          27 8 leaf_pid)).write (readLe (st.pages leaf_pid) 19 8)
        (writeLe (st.pages (readLe (st.pages leaf_pid) 19 8))
          27 8 st.next_page_id)).pages (readLe (st.pages leaf_pid) 19 8) =
        writeLe (st.pages (readLe (st.pages leaf_pid) 19 8))
          27 8 st.next_page_id := by
      unfold Store.write
      dsimp only
      rw [if_pos rfl]
    rw [hsplit]
    dsimp only
    rw [hpl, hpn, hpo]
    refine ⟨rfl, hkcold2, hkcnew3, hentold2, hknew3, hnext3, hprev3, hnextold2,
      fun _h => ?_, hkey03⟩
    rw [readLe_writeLe_same]
    exact Nat.mod_eq_of_lt (by omega)

/-- An Integer leaf (page 1) holding keys 10 and 20. -/
def c6Page : Page :=
  appendEntry (appendEntry (BPlusTreeNode.node_init zeroPage 1 true 0)
    0 10 ⟨100, 1⟩) 1 20 ⟨101, 2⟩

/-- A two-page store whose page 1 is that leaf. -/
def c6Store : Store := ⟨fun q => if q = 1 then c6Page else zeroPage, 2⟩

/-- Witness for C6: splitting the two-entry leaf keeps one entry (the
last two keys ascend, and `2 * 3 / 4 = 2 / 2 = 1`) and returns the new
leaf's first key 20 together with the fresh page id 2. -/
theorem tree_split_leaf_behavior_witness :
    2 ≤ BPlusTreeNode.key_count (c6Store.pages 1) ∧
    (BPlusTree.split_leaf ⟨0, .integer, 254, 339⟩ 1 c6Store).1 =
      .ok (.integer (leafIntKey (c6Store.pages 1) 1), 2) :=
  ⟨by decide,
    (tree_split_leaf_behavior ⟨0, .integer, 254, 339⟩ 1 c6Store 2 1 rfl
      (by decide) (by decide) (by decide) (by decide) (by decide) (by decide)
      (by decide) (Or.inl (by decide))).1⟩

end RoseDb
